import Mathlib

/-!
Verification development for the pywbem mock WBEM server responder
(`pywbem_mock/_mainprovider.py`): the in-process CIM repository and
operation responder, including its pull-enumeration session machinery.

The Python source is shallowly embedded: each modeled Python method becomes
a Lean function over explicit state.  Parts of the repository that are not
in `_mainprovider.py` (the `InMemoryRepository` datastore, the pywbem core
object classes and `NocaseDict`) are modeled from the specification and
marked as such in their doc comments.
-/

set_option autoImplicit false

namespace PywbemMock

/-- Lower-casing used for every case-insensitive comparison
(`.lower()` in the Python source), as a character-wise map. -/
def lc (s : String) : String := String.mk (s.toList.map Char.toLower)

/-- Case-insensitive string equality (`a.lower() == b.lower()`). -/
def eqci (a b : String) : Bool := lc a == lc b

/-- Case-insensitive membership of a name in a list of names.  This models
membership in the keys of a pywbem `NocaseDict` (per the spec, an ordered map
keyed case-insensitively). -/
def memci (l : List String) (s : String) : Bool := l.any (fun x => eqci x s)

/-- CIM status codes raised by the modeled operations (the numeric
`CIM_ERR_*` constants of the source). -/
inductive CIMStatus where
  | notFound
  | invalidParameter
  | invalidClass
  | invalidSuperclass
  | alreadyExists
  | invalidNamespace
  | invalidEnumerationContext
  | notSupported
  | queryLanguageNotSupported
  | namespaceNotEmpty
  | failed
deriving DecidableEq

/-- Result of a modeled Python call: either a normal return / `CIMError`
raise, or an unhandled Python-level exception (e.g. `UnboundLocalError`,
`AttributeError`) escaping the method. -/
inductive OpError where
  | cim (code : CIMStatus)
  | pyUnboundLocal
  | pyAttributeError
  | pyKeyError
deriving DecidableEq

deriving instance DecidableEq for Except

/-! ## Pull-enumeration session machinery

Embeds `_open_response` (lines 2700-2760), `_pull_response` (2762-2817) and
`CloseEnumeration` (3303-3331) of `_mainprovider.py`.  The enumerated
objects are abstracted to a type `α` (the six Open variants store lists of
instances or paths; the two helper methods never inspect the elements). -/

/-- `_DEFAULT_MAX_OBJECT_COUNT = 100` (line 62). -/
def DEFAULT_MAX_OBJECT_COUNT : Nat := 100

/-- One entry of `self.enumeration_contexts` (created at lines 2749-2755).
The `time` field of the source records a wall-clock reading that is never
read back and is not representable in a pure embedding; it is omitted. -/
structure EnumContext (α : Type) where
  pull_type : String
  data : List α
  nspace : String
  interoptimeout : Nat
  continueonerror : Bool
deriving DecidableEq

/-- The pull-related state of a `MainProvider`: the enumeration-context
table, a counter supplying fresh context ids (modeling `uuid.uuid4()`:
context ids are opaque; freshness is what matters), the namespace catalog
(consulted by `validate_namespace`) and the host's
`disable_pull_operations` flag. -/
structure PullState (α : Type) where
  contexts : List (Nat × EnumContext α)
  nextId : Nat
  nspaces : List String
  disablePull : Bool
deriving DecidableEq

/-- Dictionary lookup `self.enumeration_contexts[k]`. -/
def ctxLookup {α : Type} (l : List (Nat × EnumContext α)) (k : Nat) :
    Option (EnumContext α) :=
  (l.find? (fun e => e.1 == k)).map Prod.snd

/-- Dictionary deletion `del self.enumeration_contexts[k]`. -/
def ctxRemove {α : Type} (l : List (Nat × EnumContext α)) (k : Nat) :
    List (Nat × EnumContext α) :=
  l.filter (fun e => ! e.1 == k)

/-- Dictionary update `self.enumeration_contexts[k] = v` for a key already
present (in-place mutation of the stored context's `data` list). -/
def ctxSet {α : Type} (l : List (Nat × EnumContext α)) (k : Nat)
    (v : EnumContext α) : List (Nat × EnumContext α) :=
  l.map (fun e => if e.1 == k then (k, v) else e)

/-- Modeled from the spec: the datastore's `validate_namespace` succeeds
iff the namespace is in the catalog (`MainProvider.validate_namespace`
maps the failure to `CIM_ERR_INVALID_NAMESPACE`). -/
def nsValid (nspaces : List String) (ns : String) : Bool :=
  nspaces.contains ns

/-- The triple returned by `_open_response`: the objects sent to the
client, the end-of-sequence flag (the source uses the literal strings
`u'TRUE'` / `u'FALSE'`), and the enumeration context id, where `none`
models the empty string `""` returned when no context is created. -/
structure OpenResult (α : Type) where
  objects : List α
  eos : String
  contextId : Option Nat
deriving DecidableEq

/-- `_open_response` (lines 2700-2760).  `max_obj_cnt` defaults to 100 only
when `MaxObjectCount is None` (line 2722); a passed 0 is kept.  In the
incomplete branch the source stores the full `objects` list in the new
context and then executes `del objects[0:max_obj_cnt]`, which mutates that
same stored list: the context ends up holding the tail `objects[N:]`. -/
def openResponse {α : Type} (nspace : String) (objects : List α)
    (pull_type : String) (OperationTimeout : Option Nat)
    (MaxObjectCount : Option Nat) (ContinueOnError : Option Bool)
    (st : PullState α) : OpenResult α × PullState α :=
  let max_obj_cnt := match MaxObjectCount with
    | none => DEFAULT_MAX_OBJECT_COUNT
    | some n => n
  let cont := match ContinueOnError with
    | none => false
    | some b => b
  let timeout := match OperationTimeout with
    | none => 40
    | some t => t
  if objects.length ≤ max_obj_cnt then
    (⟨objects, "TRUE", none⟩, st)
  else
    let context_id := st.nextId
    let ctx : EnumContext α :=
      ⟨pull_type, objects.drop max_obj_cnt, nspace, timeout, cont⟩
    (⟨objects.take max_obj_cnt, "FALSE", some context_id⟩,
      { st with contexts := (context_id, ctx) :: st.contexts,
                nextId := st.nextId + 1 })

/-- Outcome of `_pull_response`: a normal return, a raised `CIMError`, or
the `UnboundLocalError` of the source's incomplete branch. -/
inductive PullOutcome (α : Type) where
  | ok (objects : List α) (eos : String) (contextId : Option Nat)
  | err (e : OpError)
deriving DecidableEq

/-- `_pull_response` (lines 2762-2817).  `if not max_obj_cnt` (line 2803)
treats both `None` and `0` as absent.  In the branch where the context is
not drained (lines 2811-2814) the source deletes the returned slice from
the stored context data but never assigns the local `context_id`, so the
final `return (rtn_objs_list, eos, context_id)` raises
`UnboundLocalError`; the context keeps the remainder. -/
def pullResponse {α : Type} (req_type : String) (EnumerationContext : Nat)
    (MaxObjectCount : Option Nat) (st : PullState α) :
    PullOutcome α × PullState α :=
  match ctxLookup st.contexts EnumerationContext with
  | none => (.err (.cim .invalidEnumerationContext), st)
  | some context_data =>
    if ¬ nsValid st.nspaces context_data.nspace then
      (.err (.cim .invalidNamespace), st)
    else if context_data.pull_type ≠ req_type then
      (.err (.cim .invalidEnumerationContext), st)
    else
      let objs_list := context_data.data
      let max_obj_cnt := match MaxObjectCount with
        | none => DEFAULT_MAX_OBJECT_COUNT
        | some n => if n = 0 then DEFAULT_MAX_OBJECT_COUNT else n
      if objs_list.length ≤ max_obj_cnt then
        (.ok objs_list "TRUE" none,
          { st with contexts := ctxRemove st.contexts EnumerationContext })
      else
        let ctx2 : EnumContext α :=
          { context_data with data := objs_list.drop max_obj_cnt }
        (.err .pyUnboundLocal,
          { st with contexts := ctxSet st.contexts EnumerationContext ctx2 })

/-- `CloseEnumeration` (lines 3303-3331), including the
`_pull_operations_disabled` guard (lines 2845-2852). -/
def closeEnumeration {α : Type} (EnumerationContext : Nat)
    (st : PullState α) : Except CIMStatus Unit × PullState α :=
  if st.disablePull then
    (.error .notSupported, st)
  else if (ctxLookup st.contexts EnumerationContext).isSome then
    (.ok (), { st with contexts := ctxRemove st.contexts EnumerationContext })
  else
    (.error .invalidEnumerationContext, st)

/-- Well-formedness of the pull state: the id counter dominates every
allocated context id, so the next allocated id is fresh. -/
def PullWF {α : Type} (st : PullState α) : Prop :=
  ∀ k : Nat, k ∈ st.contexts.map Prod.fst → k < st.nextId

/-! ## CIM data model

Modeled from the spec (§3): the pywbem core object classes are not part of
`_mainprovider.py`.  Ordered case-insensitive maps (`NocaseDict`) are
modeled as lists carrying the original casing, looked up via `eqci`. -/

/-- A CIM value.  A scalar subset suffices for the modeled operations; the
property `type` tag is carried separately on `CIMProperty` exactly as the
source compares it. -/
inductive CIMValue where
  | vNull
  | vBool (b : Bool)
  | vStr (s : String)
  | vInt (i : Int)
deriving DecidableEq

/-- Modeled from the spec: `CIMInstanceName` is
`{classname, namespace?, keybindings}` (the `host` attribute plays no role
in the modeled operations and is omitted). -/
structure CIMInstanceName where
  classname : String
  nspace : Option String
  keybindings : List (String × CIMValue)
deriving DecidableEq

/-- Modeled from the spec: a CIM property
`{name, type, is_array, array_size?, value, qualifiers, class_origin,
propagated}`.  Qualifiers are carried by name only; the modeled operations
test only membership of the names `Key` / `Association` (case-insensitively). -/
structure CIMProperty where
  name : String
  ptype : String
  is_array : Bool
  array_size : Option Nat
  value : CIMValue
  qualifiers : List String
  class_origin : Option String
  propagated : Bool
deriving DecidableEq

/-- Modeled from the spec: a CIM instance.  Instances held in the
repository always carry a path, so `path` is not optional here;
`CreateInstance` overwrites it and `ModifyInstance` requires it. -/
structure CIMInstance where
  classname : String
  properties : List CIMProperty
  qualifiers : List String
  path : CIMInstanceName
deriving DecidableEq

/-- Modeled from the spec: a CIM class (methods are omitted: no modeled
operation inspects them). -/
structure CIMClass where
  classname : String
  superclass : Option String
  qualifiers : List String
  properties : List CIMProperty
deriving DecidableEq

/-- Case-insensitive lookup in an ordered property map
(`NocaseDict.__getitem__` on `properties`). -/
def propFind (ps : List CIMProperty) (n : String) : Option CIMProperty :=
  ps.find? (fun p => eqci p.name n)

/-- Case-insensitive membership (`name in obj.properties`). -/
def propMem (ps : List CIMProperty) (n : String) : Bool :=
  (propFind ps n).isSome

/-- `NocaseDict` assignment of a whole `CIMProperty` under key `p.name`:
replace the case-insensitively matching entry in place, else append. -/
def propSet (ps : List CIMProperty) (p : CIMProperty) : List CIMProperty :=
  if propMem ps p.name then
    ps.map (fun q => if eqci q.name p.name then p else q)
  else
    ps ++ [p]

/-- Modeled from the spec: pywbem's CIM type inference when a bare value is
assigned to an instance item (`instance[name] = value` wraps the value into
a `CIMProperty` with an inferred type tag). -/
def inferredType : CIMValue → String
  | .vNull => "string"
  | .vBool _ => "boolean"
  | .vStr _ => "string"
  | .vInt _ => "sint64"

/-- `instance[name] = value` (pywbem `CIMInstance.__setitem__` with a bare
value): builds a scalar `CIMProperty` named `name` from the value. -/
def instSetValue (inst : CIMInstance) (n : String) (v : CIMValue) :
    CIMInstance :=
  let p : CIMProperty := ⟨n, inferredType v, false, none, v, [], none, false⟩
  { inst with properties := propSet inst.properties p }

/-- `instance[name]` (pywbem `CIMInstance.__getitem__`): the value of the
case-insensitively named property. -/
def instGetValue (inst : CIMInstance) (n : String) : Option CIMValue :=
  (propFind inst.properties n).map (fun p => p.value)

/-- Case-insensitive qualifier-name membership
(`'key' in prop.qualifiers` on a `NocaseDict` of qualifiers). -/
def hasQualifier (quals : List String) (n : String) : Bool :=
  memci quals n

/-- Keybinding lookup in a path (case-insensitive name). -/
def kbLookup (kbs : List (String × CIMValue)) (n : String) : Option CIMValue :=
  (kbs.find? (fun kv => eqci kv.1 n)).map Prod.snd

/-- One-sided keybinding containment used by `pathEq`. -/
def kbSub (a b : List (String × CIMValue)) : Bool :=
  a.all (fun kv => kbLookup b kv.1 == some kv.2)

/-- Modeled from the spec: two paths are equal iff classnames match
case-insensitively and keybindings match as a case-insensitive map with
value equality. -/
def pathEq (a b : CIMInstanceName) : Bool :=
  eqci a.classname b.classname && kbSub a.keybindings b.keybindings &&
    kbSub b.keybindings a.keybindings

/-! ## Datastore and namespace catalog

Modeled from the spec (§4.1, §4.2): the `InMemoryRepository` datastore is
not part of `_mainprovider.py`.  Each namespace hosts a class store (keyed
case-insensitively by classname, insertion-ordered) and an instance store
(keyed by path).  The qualifier-declaration store is not consulted by any
modeled operation and is omitted. -/

structure NamespaceStores where
  classes : List CIMClass
  instances : List CIMInstance
deriving DecidableEq

/-- The repository: the namespace catalog with each namespace's stores. -/
structure Repo where
  nspaces : List (String × NamespaceStores)
deriving DecidableEq

/-- The namespace catalog (`self.datastore.namespaces`). -/
def Repo.names (r : Repo) : List String := r.nspaces.map Prod.fst

/-- Stores of one namespace, `none` when the namespace does not exist. -/
def Repo.stores (r : Repo) (ns : String) : Option NamespaceStores :=
  (r.nspaces.find? (fun e => e.1 == ns)).map Prod.snd

/-- Replace the stores of an existing namespace. -/
def Repo.setStores (r : Repo) (ns : String) (sts : NamespaceStores) : Repo :=
  ⟨r.nspaces.map (fun e => if e.1 == ns then (ns, sts) else e)⟩

/-- `strip('/')` on a character list: drop leading and trailing slashes. -/
def stripSlashList (l : List Char) : List Char :=
  ((l.dropWhile (fun c => c == '/')).reverse.dropWhile (fun c => c == '/')).reverse

/-- `namespace.strip('/')`: drop leading and trailing slash characters. -/
def pyStripSlashes (s : String) : String :=
  String.mk (stripSlashList s.toList)

/-- Modeled from the spec: `addNamespace` strips leading/trailing `/` and
fails `ALREADY_EXISTS` if the namespace is present
(`MainProvider.add_namespace`, lines 694-723, over the datastore's
`add_namespace`). -/
def addNamespaceOp (r : Repo) (ns : String) : Except CIMStatus Repo :=
  let ns2 := pyStripSlashes ns
  if (r.stores ns2).isSome then
    .error .alreadyExists
  else
    .ok ⟨r.nspaces ++ [(ns2, ⟨[], []⟩)]⟩

/-- `class_store.exists(classname)`: case-insensitive key test. -/
def classExists (classes : List CIMClass) (cn : String) : Bool :=
  classes.any (fun c => eqci c.classname cn)

/-- `class_store.get(classname)`. -/
def classGet (classes : List CIMClass) (cn : String) : Option CIMClass :=
  classes.find? (fun c => eqci c.classname cn)

/-- `class_store.delete(classname)`: the datastore contract fails when the
key is absent (an uncaught `KeyError` at the call sites in `DeleteClass`).
Keys are unique case-insensitively (invariant I1), so removal is a filter. -/
def classDelete (classes : List CIMClass) (cn : String) :
    Except OpError (List CIMClass) :=
  if classExists classes cn then
    .ok (classes.filter (fun c => ! eqci c.classname cn))
  else
    .error (.cim .failed)

/-- `instance_store.exists(path)`. -/
def instExists (instances : List CIMInstance) (p : CIMInstanceName) : Bool :=
  instances.any (fun i => pathEq i.path p)

/-- `instance_store.get(path)`. -/
def instGet (instances : List CIMInstance) (p : CIMInstanceName) :
    Option CIMInstance :=
  instances.find? (fun i => pathEq i.path p)

/-- `instance_store.create(path, instance)`: append (fails if present;
call sites check `exists` first). -/
def instCreate (instances : List CIMInstance) (i : CIMInstance) :
    List CIMInstance :=
  instances ++ [i]

/-- `instance_store.update(path, instance)`: keyed in-place replacement. -/
def instUpdate (instances : List CIMInstance) (p : CIMInstanceName)
    (v : CIMInstance) : List CIMInstance :=
  instances.map (fun i => if pathEq i.path p then v else i)

/-- `instance_store.delete(path)`. -/
def instDelete (instances : List CIMInstance) (p : CIMInstanceName) :
    List CIMInstance :=
  instances.filter (fun i => ! pathEq i.path p)

/-! ## Shared shaping helpers of `MainProvider` -/

/-- Python truthiness of the `Option Bool` flag parameters (`None` and
`False` are falsy). -/
def isTrue (b : Option Bool) : Bool :=
  match b with
  | none => false
  | some x => x

/-- `_filter_properties` (lines 551-570): with a property list, keep only
properties whose lowered name occurs in the lowered list; `None` keeps
everything, the empty list drops everything. -/
def filterProperties (ps : List CIMProperty) (property_list : Option (List String)) :
    List CIMProperty :=
  match property_list with
  | none => ps
  | some pl =>
    let pll := pl.map lc
    ps.filter (fun p => pll.contains (lc p.name))

/-- `_remove_qualifiers` applied to a class (lines 171-190): clears
class-level and property-level qualifiers (methods omitted in the model). -/
def removeQualifiersClass (c : CIMClass) : CIMClass :=
  { c with qualifiers := [],
           properties := c.properties.map (fun p => { p with qualifiers := [] }) }

/-- `_remove_qualifiers` applied to an instance. -/
def removeQualifiersInst (i : CIMInstance) : CIMInstance :=
  { i with qualifiers := [],
           properties := i.properties.map (fun p => { p with qualifiers := [] }) }

/-- `_remove_classorigin` applied to a class (lines 192-205). -/
def removeClassOriginClass (c : CIMClass) : CIMClass :=
  { c with properties := c.properties.map (fun p => { p with class_origin := none }) }

/-- `_remove_classorigin` applied to an instance. -/
def removeClassOriginInst (i : CIMInstance) : CIMInstance :=
  { i with properties := i.properties.map (fun p => { p with class_origin := none }) }

/-- `_get_class` (lines 289-367): fetch by case-insensitive name (absent →
`NOT_FOUND`), copy, then shape by `local_only` (drop propagated
properties), `property_list`, `include_qualifiers` and
`include_classorigin` (both falsy defaults remove). -/
def getClassOp (r : Repo) (ns cn : String) (local_only : Option Bool)
    (include_qualifiers : Option Bool) (include_classorigin : Option Bool)
    (property_list : Option (List String)) : Except OpError CIMClass :=
  match r.stores ns with
  | none => .error (.cim .invalidNamespace)
  | some sts =>
    match classGet sts.classes cn with
    | none => .error (.cim .notFound)
    | some cls =>
      let cc := if isTrue local_only then
          { cls with properties := cls.properties.filter (fun p => ! p.propagated) }
        else cls
      let cc := { cc with properties := filterProperties cc.properties property_list }
      let cc := if ¬ isTrue include_qualifiers then removeQualifiersClass cc else cc
      let cc := if ¬ isTrue include_classorigin then removeClassOriginClass cc else cc
      .ok cc

/-- `_find_instance` (lines 387-420) with `copy_inst=True`: lookup by path. -/
def findInstance (iname : CIMInstanceName) (instances : List CIMInstance) :
    Option CIMInstance :=
  instGet instances iname

/-- `_get_instance` (lines 422-520): fetch a copy by path (absent →
`NOT_FOUND`) and shape it.  The `local_only` shaping of the source (drop
properties whose `class_origin` differs from the instance classname, then
restrict to the class property list) is embedded faithfully; the modeled
call sites pass `local_only=None`. -/
def getInstanceOp (r : Repo) (ns : String) (iname : CIMInstanceName)
    (instances : List CIMInstance) (property_list : Option (List String))
    (local_only : Option Bool) (include_class_origin : Option Bool)
    (include_qualifiers : Option Bool) : Except OpError CIMInstance :=
  match findInstance iname instances with
  | none => .error (.cim .notFound)
  | some inst =>
    let step1 : Except OpError CIMInstance :=
      if isTrue local_only then
        let keepOrigin : CIMProperty → Bool := fun p =>
          match p.class_origin with
          | some co => co == "" || co == inst.classname
          | none => true
        let pruned := { inst with properties := inst.properties.filter keepOrigin }
        match getClassOp r ns iname.classname local_only none none none with
        | .error (.cim .notFound) => .error (.cim .invalidClass)
        | .error e => .error e
        | .ok cl =>
          let class_pl := cl.properties.map (fun p => p.name)
          let props2 := pruned.properties.filter (fun p => class_pl.contains p.name)
          .ok { pruned with properties := props2 }
      else
        .ok inst
    match step1 with
    | .error e => .error e
    | .ok rtn =>
      let rtn := { rtn with properties := filterProperties rtn.properties property_list }
      let rtn := if ¬ isTrue include_qualifiers then removeQualifiersInst rtn else rtn
      let rtn := if ¬ isTrue include_class_origin then removeClassOriginInst rtn else rtn
      .ok rtn

/-! ## Subclass enumeration -/

/-- One level of `_get_subclass_names` (lines 269-276): with
`classname=None` the root classes (no superclass); otherwise the classes
whose superclass is truthy and case-insensitively equal to `classname`. -/
def directSubclassNames (classes : List CIMClass) (classname : Option String) :
    List String :=
  match classname with
  | none => (classes.filter (fun c => c.superclass == none)).map
      (fun c => c.classname)
  | some n => (classes.filter (fun c =>
      match c.superclass with
      | some s => (! s == "") && eqci s n
      | none => false)).map (fun c => c.classname)

/-- `_get_subclass_names` (lines 235-287).  The Python recursion is
modeled with explicit fuel; the cap `classes.length + 1` supplied by
`getSubclassNames` is exhausted only on cyclic superclass chains, where the
source itself would not terminate. -/
def getSubclassNamesFuel (classes : List CIMClass) (deep : Option Bool) :
    Nat → Option String → List String
  | 0, _ => []
  | Nat.succ f, classname =>
    let rtn := directSubclassNames classes classname
    if isTrue deep then
      rtn ++ (rtn.map (fun cln => getSubclassNamesFuel classes deep f (some cln))).flatten
    else
      rtn

/-- `_get_subclass_names` entry point. -/
def getSubclassNames (classes : List CIMClass) (classname : Option String)
    (deep : Option Bool) : List String :=
  getSubclassNamesFuel classes deep (classes.length + 1) classname

/-- `_get_subclass_list_for_enums` (lines 522-549): the deep subclass
names with the input classname appended (the source builds a `NocaseDict`
whose keys these are; only case-insensitive membership is consumed).
Absent classname → `INVALID_CLASS`. -/
def getSubclassListForEnums (classes : List CIMClass) (classname : String) :
    Except OpError (List String) :=
  if ¬ classExists classes classname then
    .error (.cim .invalidClass)
  else
    .ok (getSubclassNames classes (some classname) (some true) ++ [classname])

/-! ## Class and instance enumeration operations -/

/-- Python truthiness of an optional string (`if ClassName:`). -/
def isTruthyStr (s : Option String) : Bool :=
  match s with
  | none => false
  | some x => ! x == ""

/-- `DEFAULT_DEEP_INHERITANCE = True` (line 69). -/
def DEFAULT_DEEP_INHERITANCE : Bool := true

/-- `EnumerateClassNames` (lines 905-972): validate namespace; if
`ClassName` is truthy it must exist (`INVALID_CLASS`); return the subclass
names with `DeepInheritance` passed through (`None` is falsy, hence
one-level). -/
def enumerateClassNamesOp (r : Repo) (ns : String) (ClassName : Option String)
    (DeepInheritance : Option Bool) : Except OpError (List String) :=
  match r.stores ns with
  | none => .error (.cim .invalidNamespace)
  | some sts =>
    if isTruthyStr ClassName && ! classExists sts.classes (ClassName.getD "") then
      .error (.cim .invalidClass)
    else
      .ok (getSubclassNames sts.classes ClassName DeepInheritance)

/-- `EnumerateClasses` (lines 793-897): as `EnumerateClassNames`, then each
named class is fetched and shaped by `_get_class`. -/
def enumerateClassesOp (r : Repo) (ns : String) (ClassName : Option String)
    (DeepInheritance LocalOnly IncludeQualifiers IncludeClassOrigin : Option Bool) :
    Except OpError (List CIMClass) :=
  match r.stores ns with
  | none => .error (.cim .invalidNamespace)
  | some sts =>
    if isTruthyStr ClassName && ! classExists sts.classes (ClassName.getD "") then
      .error (.cim .invalidClass)
    else
      (getSubclassNames sts.classes ClassName DeepInheritance).mapM
        (fun cln => getClassOp r ns cln LocalOnly IncludeQualifiers
          IncludeClassOrigin none)

/-- `EnumerateInstances` (lines 1972-2042).  `DeepInheritance=None` becomes
the server default `True` (lines 2011-2012).  When not deep, the effective
property list is restricted to the target class's property names; the
returned instances are the shaped instances whose path classname lies
case-insensitively in the closed subclass set. -/
def enumerateInstancesOp (r : Repo) (ns cn : String)
    (LocalOnly DeepInheritance IncludeQualifiers IncludeClassOrigin : Option Bool)
    (PropertyList : Option (List String)) : Except OpError (List CIMInstance) :=
  match r.stores ns with
  | none => .error (.cim .invalidNamespace)
  | some sts =>
    let di : Bool := match DeepInheritance with
      | none => DEFAULT_DEEP_INHERITANCE
      | some b => b
    match getClassOp r ns cn LocalOnly none none none with
    | .error e => .error e
    | .ok cl =>
      let class_pl := cl.properties.map (fun p => p.name)
      let pl : Option (List String) :=
        if ¬ di then
          match PropertyList with
          | none => some class_pl
          | some pl0 =>
            let pl_lower := pl0.map lc
            some (class_pl.filter (fun pc => pl_lower.contains (lc pc)))
        else PropertyList
      match getSubclassListForEnums sts.classes cn with
      | .error e => .error e
      | .ok clns =>
        (sts.instances.filter (fun inst => memci clns inst.path.classname)).mapM
          (fun inst => getInstanceOp r ns inst.path sts.instances pl none
            IncludeClassOrigin IncludeQualifiers)

/-- `EnumerateInstanceNames` (lines 2050-2089): copies of the paths of all
instances whose classname is in the closed subclass set. -/
def enumerateInstanceNamesOp (r : Repo) (ns cn : String) :
    Except OpError (List CIMInstanceName) :=
  match r.stores ns with
  | none => .error (.cim .invalidNamespace)
  | some sts =>
    match getSubclassListForEnums sts.classes cn with
    | .error e => .error e
    | .ok clns =>
      .ok ((sts.instances.filter (fun inst => memci clns inst.path.classname)).map
        (fun inst => inst.path))

/-! ## DeleteClass -/

/-- The loop body of `DeleteClass` (lines 1177-1187): for each classname,
recompute the closed subclass set of the *target* class over the current
class store, delete every instance whose path classname is
case-insensitively in that set, then delete the class.  Alongside the
resulting stores the list of classnames actually deleted is returned, in
deletion order. -/
def deleteClassIter (target : String) :
    List String → NamespaceStores → (Except OpError Unit × NamespaceStores) × List String
  | [], sts => ((.ok (), sts), [])
  | cln :: rest, sts =>
    match getSubclassListForEnums sts.classes target with
    | .error e => ((.error e, sts), [])
    | .ok sub_clns =>
      let insts1 := sts.instances.filter (fun i => ! memci sub_clns i.path.classname)
      let sts1 := { sts with instances := insts1 }
      match classDelete sts1.classes cln with
      | .error e => ((.error e, sts1), [])
      | .ok cls2 =>
        match deleteClassIter target rest { sts1 with classes := cls2 } with
        | ((res, stsf), tr) => ((res, stsf), cln :: tr)

/-- `DeleteClass` (lines 1132-1187): absent class → `NOT_FOUND` with
nothing deleted; otherwise the deep subclass walk of the target with the
target appended is processed by `deleteClassIter`. -/
def deleteClassOp (r : Repo) (ns : String) (ClassName : String) :
    (Except OpError Unit × Repo) × List String :=
  match r.stores ns with
  | none => ((.error (.cim .invalidNamespace), r), [])
  | some sts =>
    if ¬ classExists sts.classes ClassName then
      ((.error (.cim .notFound), r), [])
    else
      let classnames :=
        getSubclassNames sts.classes (some ClassName) (some true) ++ [ClassName]
      match deleteClassIter ClassName classnames sts with
      | ((res, stsf), tr) =>
        match res with
        | .ok _ => ((.ok (), r.setStores ns stsf), tr)
        | .error e => ((.error e, r.setStores ns stsf), tr)

/-- Superclass-chain length of a class (depth in the inheritance forest;
fuel-bounded like the walks). -/
def classDepthFuel (classes : List CIMClass) : Nat → String → Nat
  | 0, _ => 0
  | Nat.succ f, cn =>
    match classGet classes cn with
    | none => 0
    | some c =>
      match c.superclass with
      | none => 0
      | some s => classDepthFuel classes f s + 1

/-- Depth of a class under its superclass chain. -/
def classDepth (classes : List CIMClass) (cn : String) : Nat :=
  classDepthFuel classes (classes.length + 1) cn

/-- The order asserted by the specification for class deletion: descending
depth (deepest subclasses first). -/
def descendingDepth (classes : List CIMClass) : List String → Bool
  | [] => true
  | a :: rest =>
    rest.all (fun b => classDepth classes b ≤ classDepth classes a) &&
      descendingDepth classes rest

/-! ## CreateInstance -/

/-- The namespace-creation classname dispatch of `CreateInstance`
(lines 1476-1482). -/
def nsCreationClass (cn : String) : Option String :=
  if lc cn == "pg_namespace" then some "PG_Namespace"
  else if lc cn == "cim_namespace" then some "CIM_Namespace"
  else none

/-- The property-conformance loop of `CreateInstance` (lines 1522-1545):
every instance property must be declared by the class with matching
`is_array` and `type`, and its name is normalized to the class casing. -/
def conformCreateProps (cls : CIMClass) :
    List CIMProperty → Except OpError (List CIMProperty)
  | [] => .ok []
  | p :: rest =>
    match propFind cls.properties p.name with
    | none => .error (.cim .invalidParameter)
    | some cprop =>
      if (p.is_array != cprop.is_array) || (p.ptype != cprop.ptype) then
        .error (.cim .invalidParameter)
      else
        match conformCreateProps cls rest with
        | .error e => .error e
        | .ok rest2 => .ok ({ p with name := cprop.name } :: rest2)

/-- The default-fill loop of `CreateInstance` (lines 1549-1552): every
class property absent from the instance is added as the class's property
(carrying the class default value). -/
def fillDefaults (inst : CIMInstance) : List CIMProperty → CIMInstance
  | [] => inst
  | cp :: rest =>
    let inst2 :=
      if propMem inst.properties cp.name then inst
      else { inst with properties := inst.properties ++ [cp] }
    fillDefaults inst2 rest

/-- Modeled from the spec: `CIMInstanceName.from_instance` (pywbem core,
used at lines 1555-1558) builds the path from the class's Key-qualified
properties and the instance's values. -/
def pathFromInstance (cls : CIMClass) (inst : CIMInstance) (ns : String) :
    CIMInstanceName :=
  { classname := inst.classname,
    nspace := some ns,
    keybindings := (cls.properties.filter
        (fun p => hasQualifier p.qualifiers "key")).map
      (fun p => (p.name, match instGetValue inst p.name with
        | some v => v
        | none => CIMValue.vNull)) }

/-- The namespace-creation block of `CreateInstance` (lines 1473-1507):
for a `PG_Namespace`/`CIM_Namespace` classname, extract the `Name` key
(absent → `INVALID_PARAMETER`), strip surrounding slashes, write the
normalized name back, fill the five synthetic well-known keys, and return
the namespace name to add; otherwise pass the instance through.  A
non-string `Name` value would hit `.strip` on a non-string
(`AttributeError`). -/
def nsCreationStep (NewInstance : CIMInstance) :
    Except OpError (CIMInstance × Option String) :=
  match nsCreationClass NewInstance.classname with
  | none => .ok (NewInstance, none)
  | some ns_classname =>
    match instGetValue NewInstance "Name" with
    | none => .error (.cim .invalidParameter)
    | some v =>
      match v with
      | .vStr s =>
        let new_namespace := pyStripSlashes s
        let i1 := instSetValue NewInstance "Name" (.vStr new_namespace)
        let i2 := instSetValue i1 "CreationClassName" (.vStr ns_classname)
        let i3 := instSetValue i2 "ObjectManagerName"
          (.vStr "MyFakeObjectManager")
        let i4 := instSetValue i3 "ObjectManagerCreationClassName"
          (.vStr "CIM_ObjectManager")
        let i5 := instSetValue i4 "SystemName"
          (.vStr "Mock_Test_WBEMServerTest")
        let i6 := instSetValue i5 "SystemCreationClassName"
          (.vStr "CIM_ComputerSystem")
        .ok (i6, some new_namespace)
      | _ => .error .pyAttributeError

/-- The validation phase of `CreateInstance` (lines 1446-1565), i.e.
everything before the repository is first touched, in source order:
namespace validation, class fetch (`NOT_FOUND` remapped to
`INVALID_CLASS`), the namespace-creation block, the Key-property presence
check, property conformance with casing normalization, default filling,
path construction, and the duplicate-path check.  Returns the namespace
stores, the fully prepared instance (path set) and the namespace name to
add, if any. -/
def createInstancePrep (r : Repo) (ns : String) (NewInstance : CIMInstance) :
    Except OpError (NamespaceStores × CIMInstance × Option String) :=
  match r.stores ns with
  | none => .error (.cim .invalidNamespace)
  | some sts =>
    match getClassOp r ns NewInstance.classname (some false) (some true)
        (some true) none with
    | .error (.cim .notFound) => .error (.cim .invalidClass)
    | .error e => .error e
    | .ok target_class =>
      match nsCreationStep NewInstance with
      | .error e => .error e
      | .ok (inst1, nsToAdd) =>
        let key_props := (target_class.properties.filter
          (fun p => hasQualifier p.qualifiers "key")).map (fun p => p.name)
        if ¬ key_props.all (fun pn => propMem inst1.properties pn) then
          .error (.cim .invalidParameter)
        else
          match conformCreateProps target_class inst1.properties with
          | .error e => .error e
          | .ok props2 =>
            let inst2 := fillDefaults { inst1 with properties := props2 }
              target_class.properties
            let path := pathFromInstance target_class inst2 ns
            let inst3 := { inst2 with path := path }
            if instExists sts.instances path then
              .error (.cim .alreadyExists)
            else
              .ok (sts, inst3, nsToAdd)

/-- `CreateInstance` (lines 1399-1578): the validation phase
(`createInstancePrep`) runs first — every raise site of the source
precedes any repository mutation — then the commit phase (lines
1567-1578): add the new namespace for a namespace-creation request
(`add_namespace` itself may raise `ALREADY_EXISTS`, leaving the
repository unchanged), then insert the instance, and return its path. -/
def createInstanceOp (r : Repo) (ns : String) (NewInstance : CIMInstance) :
    Except OpError CIMInstanceName × Repo :=
  match createInstancePrep r ns NewInstance with
  | .error e => (.error e, r)
  | .ok (sts, inst3, nsToAdd) =>
    match nsToAdd with
    | some nm =>
      match addNamespaceOp r nm with
      | .error c => (.error (.cim c), r)
      | .ok r2 =>
        (.ok inst3.path, r2.setStores ns
          { sts with instances := instCreate sts.instances inst3 })
    | none =>
      (.ok inst3.path, r.setStores ns
        { sts with instances := instCreate sts.instances inst3 })

/-! ## ModifyInstance -/

/-- The drop-unchanged loop of `ModifyInstance` (lines 1758-1760):
properties of the modified instance whose value equals the original
instance's value are dropped.  The source reads `orig_instance[p]`, which
raises `KeyError` when the original lacks the property. -/
def dropUnchanged (orig : CIMInstance) :
    List CIMProperty → Except OpError (List CIMProperty)
  | [] => .ok []
  | p :: rest =>
    match instGetValue orig p.name with
    | none => .error .pyKeyError
    | some ov =>
      match dropUnchanged orig rest with
      | .error e => .error e
      | .ok rest2 => .ok (if ov == p.value then rest2 else p :: rest2)

/-- The final conformance loop of `ModifyInstance` (lines 1780-1802):
class membership, `is_array` / `type` / `array_size` agreement, and
normalization of the property name to the class casing. -/
def conformModifyProps (cls : CIMClass) :
    List CIMProperty → Except OpError (List CIMProperty)
  | [] => .ok []
  | p :: rest =>
    match propFind cls.properties p.name with
    | none => .error (.cim .invalidParameter)
    | some cprop =>
      if (p.is_array != cprop.is_array) || (p.ptype != cprop.ptype) ||
          (p.array_size != cprop.array_size) then
        .error (.cim .invalidParameter)
      else
        match conformModifyProps cls rest with
        | .error e => .error e
        | .ok rest2 => .ok ({ p with name := cprop.name } :: rest2)

/-- `CIMInstance.update(properties)` (pywbem core, line 1806; modeled from
the spec): merge each property into the instance's case-insensitive map in
order. -/
def instUpdateProps (inst : CIMInstance) (ps : List CIMProperty) : CIMInstance :=
  ps.foldl (fun i p => { i with properties := propSet i.properties p }) inst

/-- `ModifyInstance` (lines 1586-1809).  Notable source behaviors embedded
here: the namespace is validated (via `get_instance_store`) *before* the
empty-property-list early return (lines 1668-1674); the property-list
de-duplication at lines 1726-1728 uses a Python `set`, i.e. exact string
identity (only membership in the list is consumed afterwards, so the model
uses `List.dedup`); and the filter at lines 1772-1776 tests the instance
property name against `property_list` by *case-sensitive* list
membership. -/
def modifyInstanceOp (r : Repo) (ns : String) (ModifiedInstance : CIMInstance)
    (IncludeQualifiers : Option Bool) (PropertyList : Option (List String)) :
    Except OpError Unit × Repo :=
  match r.stores ns with
  | none => (.error (.cim .invalidNamespace), r)
  | some sts =>
    if PropertyList = some [] then
      (.ok (), r)
    else
      if ¬ eqci ModifiedInstance.classname ModifiedInstance.path.classname then
        (.error (.cim .invalidParameter), r)
      else
        match getClassOp r ns ModifiedInstance.classname (some false)
            (some true) (some true) none with
        | .error (.cim .notFound) => (.error (.cim .invalidClass), r)
        | .error e => (.error e, r)
        | .ok target_class =>
          let mpath :=
            if ModifiedInstance.path.nspace = none then
              { ModifiedInstance.path with nspace := some ns }
            else ModifiedInstance.path
          let modified_instance := { ModifiedInstance with path := mpath }
          match findInstance mpath sts.instances with
          | none => (.error (.cim .notFound), r)
          | some orig_instance =>
            let property_list : Option (List String) :=
              match PropertyList with
              | none => none
              | some pl => some (if pl.length ≠ pl.dedup.length then pl.dedup else pl)
            let plCheck : Bool :=
              match property_list with
              | none => true
              | some pl => pl.all (fun p => propMem target_class.properties p)
            if ¬ plCheck then
              (.error (.cim .invalidParameter), r)
            else if ¬ modified_instance.properties.all
                (fun p => propMem target_class.properties p.name) then
              (.error (.cim .invalidParameter), r)
            else
              let mod_inst_props :=
                (modified_instance.properties.map (fun p => lc p.name)).dedup
              let cl_props := target_class.properties.map (fun p => lc p.name)
              let chngd_props := mod_inst_props.filter
                (fun p => ! cl_props.contains p)
              let modified_instance := chngd_props.foldl (fun mi prop =>
                match propFind target_class.properties prop with
                | some cp => instSetValue mi prop cp.value
                | none => mi) modified_instance
              match dropUnchanged orig_instance modified_instance.properties with
              | .error e => (.error e, r)
              | .ok props1 =>
                let modified_instance := { modified_instance with properties := props1 }
                let key_props := (target_class.properties.filter
                  (fun p => hasQualifier p.qualifiers "key")).map (fun p => p.name)
                if key_props.any (fun p => propMem modified_instance.properties p) then
                  (.error (.cim .invalidParameter), r)
                else
                  let modified_instance :=
                    match property_list with
                    | none => modified_instance
                    | some pl =>
                      let kept := modified_instance.properties.filter
                        (fun (p : CIMProperty) => pl.contains p.name)
                      { modified_instance with properties := kept }
                  match conformModifyProps target_class modified_instance.properties with
                  | .error e => (.error e, r)
                  | .ok props2 =>
                    let orig2 := instUpdateProps orig_instance props2
                    (.ok (), r.setStores ns
                      { sts with instances := instUpdate sts.instances mpath orig2 })

/-! ## Concrete repositories and states used by the claim witnesses -/

/-- A pull state holding one open context of pull type `PullInstances`
with five objects of data. -/
def c2State : PullState Nat :=
  ⟨[(7, ⟨"PullInstances", [1, 2, 3, 4, 5], "root", 40, false⟩)], 8, ["root"], false⟩

/-- Initial pull state of the C3 session evaluation. -/
def c3State0 : PullState Nat := ⟨[], 0, ["root"], false⟩

/-- The Open call of the C3 session: five objects, `MaxObjectCount=2`. -/
def c3Open : OpenResult Nat × PullState Nat :=
  openResponse "root" [10, 20, 30, 40, 50] "PullInstances" none (some 2) none c3State0

/-- First Pull of the C3 session. -/
def c3Pull1 : PullOutcome Nat × PullState Nat :=
  pullResponse "PullInstances" 0 (some 2) c3Open.2

/-- Second Pull of the C3 session. -/
def c3Pull2 : PullOutcome Nat × PullState Nat :=
  pullResponse "PullInstances" 0 (some 2) c3Pull1.2

/-- A class with a Key property `ID` and an ordinary string property `Foo`. -/
def c8Class : CIMClass :=
  ⟨"CIM_Foo", none, [],
    [⟨"ID", "string", false, none, .vNull, ["Key"], some "CIM_Foo", false⟩,
      ⟨"Foo", "string", false, none, .vNull, [], some "CIM_Foo", false⟩]⟩

/-- Path of the stored `CIM_Foo` instance. -/
def c8Path : CIMInstanceName := ⟨"CIM_Foo", some "root", [("ID", .vStr "i1")]⟩

/-- The stored instance, with `Foo = "old"`. -/
def c8Stored : CIMInstance :=
  ⟨"CIM_Foo",
    [⟨"ID", "string", false, none, .vStr "i1", ["Key"], some "CIM_Foo", false⟩,
      ⟨"Foo", "string", false, none, .vStr "old", [], some "CIM_Foo", false⟩],
    [], c8Path⟩

/-- Repository with one namespace, one class and one instance. -/
def c8Repo : Repo := ⟨[("root", ⟨[c8Class], [c8Stored]⟩)]⟩

/-- A modified instance carrying `Foo = "new"` (path identifies the stored
instance; the namespace of the path is left `None`). -/
def c8Mod : CIMInstance :=
  ⟨"CIM_Foo", [⟨"Foo", "string", false, none, .vStr "new", [], none, false⟩],
    [], ⟨"CIM_Foo", none, [("ID", .vStr "i1")]⟩⟩

/-- The stored instance after a successful modification of `Foo`. -/
def c8Updated : CIMInstance :=
  ⟨"CIM_Foo",
    [⟨"ID", "string", false, none, .vStr "i1", ["Key"], some "CIM_Foo", false⟩,
      ⟨"Foo", "string", false, none, .vStr "new", [], none, false⟩],
    [], c8Path⟩

/-- A trivial instance used by the ModifyInstance empty-property-list
claims (never inspected beyond its types on those paths). -/
def c9Inst : CIMInstance := ⟨"CIM_Foo", [], [], ⟨"CIM_Foo", none, []⟩⟩

/-- Root class of the enumeration-defaults example. -/
def c7Root : CIMClass :=
  ⟨"Root", none, [],
    [⟨"K", "string", false, none, .vNull, ["Key"], some "Root", false⟩]⟩

/-- Direct subclass of `Root`. -/
def c7Child : CIMClass :=
  ⟨"Child", some "Root", [],
    [⟨"K", "string", false, none, .vNull, ["Key"], some "Root", true⟩]⟩

/-- An instance of the subclass `Child`. -/
def c7Inst : CIMInstance :=
  ⟨"Child", [⟨"K", "string", false, none, .vStr "a", ["Key"], some "Root", true⟩],
    [], ⟨"Child", some "root", [("K", .vStr "a")]⟩⟩

/-- Repository for the enumeration-defaults example. -/
def c7Repo : Repo := ⟨[("root", ⟨[c7Root, c7Child], [c7Inst]⟩)]⟩

/-- A key property of the witness `CIM_Namespace` class. -/
def c5KeyProp (n : String) : CIMProperty :=
  ⟨n, "string", false, none, .vNull, ["Key"], some "CIM_Namespace", false⟩

/-- The `CIM_Namespace` class with its six key properties. -/
def c5Class : CIMClass :=
  ⟨"CIM_Namespace", none, [],
    [c5KeyProp "Name", c5KeyProp "CreationClassName",
      c5KeyProp "ObjectManagerName", c5KeyProp "ObjectManagerCreationClassName",
      c5KeyProp "SystemName", c5KeyProp "SystemCreationClassName"]⟩

/-- Repository before the namespace-creating `CreateInstance`. -/
def c5Repo : Repo := ⟨[("root", ⟨[c5Class], []⟩)]⟩

/-- Root class of the DeleteClass examples. -/
def c6A : CIMClass := ⟨"A", none, [], []⟩

/-- Direct subclass of `A`. -/
def c6B : CIMClass := ⟨"B", some "A", [], []⟩

/-- Subclass of `B` (depth 2 under `A`). -/
def c6C : CIMClass := ⟨"C", some "B", [], []⟩

/-- Repository for the DeleteClass order counterexample. -/
def c6Repo : Repo := ⟨[("root", ⟨[c6A, c6B, c6C], []⟩)]⟩

/-- An instance whose path classname matches `C` only case-insensitively. -/
def c6InstC : CIMInstance := ⟨"c", [], [], ⟨"c", some "root", [("K", .vStr "1")]⟩⟩

/-- An instance of an unrelated class, which must survive. -/
def c6InstX : CIMInstance := ⟨"X", [], [], ⟨"X", some "root", [("K", .vStr "2")]⟩⟩

/-- Repository for the DeleteClass effect witness. -/
def c6wRepo : Repo := ⟨[("root", ⟨[c6A, c6B, c6C], [c6InstC, c6InstX]⟩)]⟩

/-- The namespace-creation request: a `CIM_Namespace` instance whose only
supplied property is `Name = "/root/test/"`. -/
def c5NewInst : CIMInstance :=
  ⟨"CIM_Namespace",
    [⟨"Name", "string", false, none, .vStr "/root/test/", [], none, false⟩],
    [], ⟨"CIM_Namespace", none, []⟩⟩

/-- The properties of the created instance after normalization and the
synthetic well-known keys. -/
def c5OutProps : List CIMProperty :=
  [⟨"Name", "string", false, none, .vStr "root/test", [], none, false⟩,
    ⟨"CreationClassName", "string", false, none, .vStr "CIM_Namespace", [], none, false⟩,
    ⟨"ObjectManagerName", "string", false, none, .vStr "MyFakeObjectManager", [], none, false⟩,
    ⟨"ObjectManagerCreationClassName", "string", false, none, .vStr "CIM_ObjectManager", [], none, false⟩,
    ⟨"SystemName", "string", false, none, .vStr "Mock_Test_WBEMServerTest", [], none, false⟩,
    ⟨"SystemCreationClassName", "string", false, none, .vStr "CIM_ComputerSystem", [], none, false⟩]

/-- The server-built path of the created instance. -/
def c5OutPath : CIMInstanceName :=
  ⟨"CIM_Namespace", some "root",
    [("Name", .vStr "root/test"), ("CreationClassName", .vStr "CIM_Namespace"),
      ("ObjectManagerName", .vStr "MyFakeObjectManager"),
      ("ObjectManagerCreationClassName", .vStr "CIM_ObjectManager"),
      ("SystemName", .vStr "Mock_Test_WBEMServerTest"),
      ("SystemCreationClassName", .vStr "CIM_ComputerSystem")]⟩

/-- The created instance as stored. -/
def c5OutInst : CIMInstance := ⟨"CIM_Namespace", c5OutProps, [], c5OutPath⟩

/-- Repository after the namespace-creating `CreateInstance`. -/
def c5Repo2 : Repo :=
  ⟨[("root", ⟨[c5Class], [c5OutInst]⟩), ("root/test", ⟨[], []⟩)]⟩

/-! ## Theorems: pull-enumeration claims -/

/-- Removing a context id makes its lookup fail. -/
theorem ctxLookup_remove_self {α : Type} (l : List (Nat × EnumContext α)) (k : Nat) :
    ctxLookup (ctxRemove l k) k = none := by
  unfold ctxLookup ctxRemove
  rw [Option.map_eq_none', List.find?_eq_none]
  intro x hx
  rcases List.mem_filter.1 hx with ⟨hmem, hcond⟩
  simp only [Bool.not_eq_eq_eq_not, Bool.not_true, beq_eq_false_iff_ne] at hcond
  simp [hcond]

/-- In a well-formed pull state the id counter is unallocated. -/
theorem ctxLookup_fresh {α : Type} (st : PullState α) (hwf : PullWF st) :
    ctxLookup st.contexts st.nextId = none := by
  unfold ctxLookup
  rw [Option.map_eq_none', List.find?_eq_none]
  intro x hx
  have hlt := hwf x.1 (List.mem_map_of_mem Prod.fst hx)
  simp only [beq_iff_eq]
  omega

/-- Claim C1: `_open_response` with result list `all` and
`N = MaxObjectCount` (default 100): if `|all| ≤ N` it returns
`(all, eos=TRUE, contextId="")` and the state is unchanged (no context
created); otherwise it returns `(all[:N], eos=FALSE, cid)` for a freshly
allocated context id `cid`, and the new context stores the tail `all[N:]`
as its data together with the pull type and namespace. -/
theorem C1_open_response (α : Type) (nspace : String) (objects : List α)
    (pull_type : String) (ot moc : Option Nat) (coe : Option Bool)
    (st : PullState α) (hwf : PullWF st) :
    (objects.length ≤ moc.getD DEFAULT_MAX_OBJECT_COUNT →
      openResponse nspace objects pull_type ot moc coe st =
        (⟨objects, "TRUE", none⟩, st)) ∧
    (moc.getD DEFAULT_MAX_OBJECT_COUNT < objects.length →
      openResponse nspace objects pull_type ot moc coe st =
        (⟨objects.take (moc.getD DEFAULT_MAX_OBJECT_COUNT), "FALSE", some st.nextId⟩,
          ⟨(st.nextId, ⟨pull_type, objects.drop (moc.getD DEFAULT_MAX_OBJECT_COUNT),
              nspace, ot.getD 40, coe.getD false⟩) :: st.contexts,
            st.nextId + 1, st.nspaces, st.disablePull⟩) ∧
      ctxLookup st.contexts st.nextId = none) := by
  refine ⟨fun h => ?_, fun h => ⟨?_, ctxLookup_fresh st hwf⟩⟩
  · cases moc <;> cases ot <;> cases coe <;>
      simp_all [openResponse, Option.getD, DEFAULT_MAX_OBJECT_COUNT]
  · have h2 : ¬ objects.length ≤ moc.getD DEFAULT_MAX_OBJECT_COUNT := by omega
    cases moc <;> cases ot <;> cases coe <;>
      simp_all [openResponse, Option.getD, DEFAULT_MAX_OBJECT_COUNT]

/-- Witness for C1 at a concrete input exercising both branches. -/
theorem C1_open_response_witness :
    openResponse "root" [1, 2, 3] "PullInstances" none (some 2) none
      (⟨[], 5, ["root"], false⟩ : PullState Nat) =
      (⟨[1, 2], "FALSE", some 5⟩,
        ⟨[(5, ⟨"PullInstances", [3], "root", 40, false⟩)], 6, ["root"], false⟩) ∧
    openResponse "root" [1, 2, 3] "PullInstances" none (some 3) none
      (⟨[], 5, ["root"], false⟩ : PullState Nat) =
      (⟨[1, 2, 3], "TRUE", none⟩, ⟨[], 5, ["root"], false⟩) := by
  have hwf : PullWF (⟨[], 5, ["root"], false⟩ : PullState Nat) := by
    intro k hk; simp [PullState.contexts] at hk
  constructor
  · have h := (C1_open_response Nat "root" [1, 2, 3] "PullInstances" none (some 2)
      none ⟨[], 5, ["root"], false⟩ hwf).2 (by decide)
    simpa using h.1
  · have h := (C1_open_response Nat "root" [1, 2, 3] "PullInstances" none (some 3)
      none ⟨[], 5, ["root"], false⟩ hwf).1 (by decide)
    simpa using h

/-- Claim C2 (failing evaluation): pulling 2 objects from a context holding
5 does not return `(data[:2], endOfSequence=false)` as claimed; the source
deletes the slice from the context and then raises `UnboundLocalError`
(`context_id` is never assigned in the non-draining branch of
`_pull_response`).  The draining branch behaves as claimed. -/
theorem C2_pull_nondrain_unboundlocal :
    pullResponse "PullInstances" 7 (some 2) c2State =
      (.err .pyUnboundLocal,
        ⟨[(7, ⟨"PullInstances", [3, 4, 5], "root", 40, false⟩)], 8, ["root"], false⟩) ∧
    pullResponse "PullInstances" 7 (some 9) c2State =
      (.ok [1, 2, 3, 4, 5] "TRUE" none, ⟨[], 8, ["root"], false⟩) := by
  constructor <;> rfl

/-- Claim C3 (failing evaluation): an Open of five objects with
`MaxObjectCount=2` followed by Pulls with `MaxObjectCount=2` until
`endOfSequence=TRUE`: the first Pull raises `UnboundLocalError` after
discarding two objects from the context, the second Pull drains the one
remaining object, so the concatenation of all returned pages is
`[10,20] ++ [50]`, not the full Open-time result `[10,20,30,40,50]`. -/
theorem C3_session_loses_objects :
    c3Open.1 = ⟨[10, 20], "FALSE", some 0⟩ ∧
    c3Pull1.1 = .err .pyUnboundLocal ∧
    c3Pull1.2.contexts = [(0, ⟨"PullInstances", [50], "root", 40, false⟩)] ∧
    c3Pull2.1 = .ok [50] "TRUE" none ∧
    [10, 20] ++ [50] ≠ [10, 20, 30, 40, 50] := by
  refine ⟨rfl, rfl, rfl, rfl, by decide⟩

/-- Claim C4: a Pull with an unknown enumeration-context id raises
`INVALID_ENUMERATION_CONTEXT`; a Pull whose stored pull type differs from
the requested one raises `INVALID_ENUMERATION_CONTEXT`; `CloseEnumeration`
with a missing context raises `INVALID_ENUMERATION_CONTEXT` and with a
present one deletes exactly that context. -/
theorem C4_context_validation (α : Type) (st : PullState α) (rt : String)
    (ec : Nat) (moc : Option Nat) :
    (ctxLookup st.contexts ec = none →
      pullResponse rt ec moc st = (.err (.cim .invalidEnumerationContext), st)) ∧
    (∀ cd : EnumContext α, ctxLookup st.contexts ec = some cd →
      nsValid st.nspaces cd.nspace = true → cd.pull_type ≠ rt →
      pullResponse rt ec moc st = (.err (.cim .invalidEnumerationContext), st)) ∧
    (st.disablePull = false → ctxLookup st.contexts ec = none →
      closeEnumeration ec st = (.error .invalidEnumerationContext, st)) ∧
    (st.disablePull = false → ∀ cd : EnumContext α,
      ctxLookup st.contexts ec = some cd →
      closeEnumeration ec st =
        (.ok (), ⟨ctxRemove st.contexts ec, st.nextId, st.nspaces, st.disablePull⟩) ∧
      ctxLookup (ctxRemove st.contexts ec) ec = none) := by
  refine ⟨fun h => ?_, fun cd h hns hne => ?_, fun hd h => ?_, fun hd cd h => ?_⟩
  · simp [pullResponse, h]
  · simp [pullResponse, h, hns, hne]
  · simp [closeEnumeration, hd, h]
  · refine ⟨by simp [closeEnumeration, hd, h], ctxLookup_remove_self _ _⟩

/-- Witness for C4 on a concrete state: unknown id for Pull and Close,
type-mismatched Pull, and a successful Close. -/
theorem C4_context_validation_witness :
    pullResponse "PullInstances" 9 none c2State =
      (.err (.cim .invalidEnumerationContext), c2State) ∧
    pullResponse "PullInstancePaths" 7 none c2State =
      (.err (.cim .invalidEnumerationContext), c2State) ∧
    closeEnumeration 9 c2State = (.error .invalidEnumerationContext, c2State) ∧
    closeEnumeration 7 c2State = (.ok (), ⟨[], 8, ["root"], false⟩) := by
  refine ⟨?_, ?_, ?_, ?_⟩
  · exact (C4_context_validation Nat c2State "PullInstances" 9 none).1 rfl
  · exact (C4_context_validation Nat c2State "PullInstancePaths" 7 none).2.1
      ⟨"PullInstances", [1, 2, 3, 4, 5], "root", 40, false⟩ rfl rfl (by decide)
  · exact (C4_context_validation Nat c2State "PullInstances" 9 none).2.2.1 rfl rfl
  · have h := ((C4_context_validation Nat c2State "PullInstances" 7 none).2.2.2 rfl
      ⟨"PullInstances", [1, 2, 3, 4, 5], "root", 40, false⟩ rfl).1
    simpa using h

/-- Claim C10: `MaxObjectCount=0` is asymmetric.  For `_pull_response` a
zero is treated like an absent `MaxObjectCount` (both fall back to the
default of 100, with identical result and state); for `_open_response` a
zero is kept, so with a non-empty result list zero objects are returned
with `endOfSequence=FALSE` and the entire result list is stored as the new
context's data. -/
theorem C10_maxobjectcount_zero (α : Type) :
    (∀ (rt : String) (ec : Nat) (st : PullState α),
      pullResponse rt ec (some 0) st = pullResponse rt ec none st ∧
      pullResponse rt ec (some 0) st =
        pullResponse rt ec (some DEFAULT_MAX_OBJECT_COUNT) st) ∧
    (∀ (ns : String) (objects : List α) (pt : String) (ot : Option Nat)
      (coe : Option Bool) (st : PullState α), objects ≠ [] →
      openResponse ns objects pt ot (some 0) coe st =
        (⟨[], "FALSE", some st.nextId⟩,
          ⟨(st.nextId, ⟨pt, objects, ns, ot.getD 40, coe.getD false⟩) :: st.contexts,
            st.nextId + 1, st.nspaces, st.disablePull⟩)) := by
  constructor
  · intro rt ec st
    constructor <;> rfl
  · intro ns objects pt ot coe st h
    have hlen : ¬ objects.length ≤ 0 := by
      simp only [Nat.le_zero, List.length_eq_zero]
      exact h
    cases ot <;> cases coe <;>
      simp_all [openResponse, Option.getD]

/-- Witness for C10 at concrete inputs. -/
theorem C10_maxobjectcount_zero_witness :
    pullResponse "PullInstances" 7 (some 0) c2State =
      pullResponse "PullInstances" 7 none c2State ∧
    openResponse "root" [42] "PullInstances" none (some 0) none
      (⟨[], 5, ["root"], false⟩ : PullState Nat) =
      (⟨[], "FALSE", some 5⟩,
        ⟨[(5, ⟨"PullInstances", [42], "root", 40, false⟩)], 6, ["root"], false⟩) := by
  constructor
  · exact ((C10_maxobjectcount_zero Nat).1 "PullInstances" 7 c2State).1
  · have h := (C10_maxobjectcount_zero Nat).2 "root" [42] "PullInstances" none none
      ⟨[], 5, ["root"], false⟩ (by decide)
    simpa using h

/-! ## Theorems: ModifyInstance claims -/

/-- Claim C8 (failing evaluation): `ModifyInstance` with
`PropertyList=["FOO"]` leaves the stored `Foo = "old"` untouched (the
filter at source lines 1772-1776 compares the instance property name
`"Foo"` against the property list by case-sensitive Python list
membership), whereas the identical call with `PropertyList=["Foo"]`
updates the property to `"new"`: replacing a name in `PropertyList` by an
alternate casing changes the resulting repository state, contradicting
the claimed case-insensitive matching. -/
theorem C8_propertylist_case_sensitivity :
    modifyInstanceOp c8Repo "root" c8Mod none (some ["FOO"]) = (.ok (), c8Repo) ∧
    modifyInstanceOp c8Repo "root" c8Mod none (some ["Foo"]) =
      (.ok (), ⟨[("root", ⟨[c8Class], [c8Updated]⟩)]⟩) ∧
    instGetValue c8Stored "Foo" = some (.vStr "old") ∧
    instGetValue c8Updated "Foo" = some (.vStr "new") := by
  refine ⟨by decide, by decide, by decide, by decide⟩

/-- Claim C9 counterexample: with an empty (non-null) `PropertyList` but a
namespace that does not exist, `ModifyInstance` raises
`INVALID_NAMESPACE` instead of returning normally: the source validates
the namespace (line 1668, `get_instance_store`) before the
empty-property-list check (lines 1672-1674), so the claim does not hold
for all values of the other arguments. -/
theorem C9_counterexample :
    modifyInstanceOp c8Repo "nope" c9Inst none (some []) =
      (.error (.cim .invalidNamespace), c8Repo) := by
  decide

/-- Claim C9 (amended): for every `ModifyInstance` call whose
`PropertyList` is the empty (non-null) list and whose namespace exists,
the call returns normally and leaves the repository unchanged, for all
values of the other arguments. -/
theorem C9_empty_propertylist (r : Repo) (ns : String) (inst : CIMInstance)
    (iq : Option Bool) (sts : NamespaceStores) (h : r.stores ns = some sts) :
    modifyInstanceOp r ns inst iq (some []) = (.ok (), r) := by
  simp [modifyInstanceOp, h]

/-- Witness for the amended C9 on a concrete repository. -/
theorem C9_empty_propertylist_witness :
    modifyInstanceOp c8Repo "root" c9Inst none (some []) = (.ok (), c8Repo) :=
  C9_empty_propertylist c8Repo "root" c9Inst none ⟨[c8Class], [c8Stored]⟩ (by decide)

/-! ## Theorems: enumeration defaults (C7) -/

/-- With a falsy `deep_inheritance`, the subclass walk is one level. -/
theorem getSubclassNames_not_deep (classes : List CIMClass) (cn : Option String)
    (deep : Option Bool) (hd : isTrue deep = false) :
    getSubclassNames classes cn deep = directSubclassNames classes cn := by
  unfold getSubclassNames getSubclassNamesFuel
  simp [hd]

/-- `deep_inheritance=None` and `deep_inheritance=False` walk identically. -/
theorem getSubclassNames_none_eq_false (classes : List CIMClass) (cn : Option String) :
    getSubclassNames classes cn none = getSubclassNames classes cn (some false) := by
  rw [getSubclassNames_not_deep classes cn none rfl,
    getSubclassNames_not_deep classes cn (some false) rfl]

/-- `class_store.exists` agrees with `class_store.get`. -/
theorem classExists_iff (classes : List CIMClass) (cn : String) :
    classExists classes cn = true ↔ ∃ c, classGet classes cn = some c := by
  unfold classExists classGet
  rw [List.any_eq_true, ← Option.isSome_iff_exists, List.find?_isSome]

/-- Claim C7: `DeepInheritance=None` defaults asymmetrically.
`EnumerateInstances` treats it as `True`: the call equals the call with
`DeepInheritance=True`, and (for an existing class) returns the shaped
instances whose classname is case-insensitively in the closed deep
subclass set of the named class, with the user `PropertyList` passed
through.  `EnumerateClasses` and `EnumerateClassNames` treat it as
`False`: the calls equal the calls with `DeepInheritance=False`, and
return only the direct subclasses of the named class, or only the root
classes when `ClassName` is absent. -/
theorem C7_deepinheritance_defaults (r : Repo) (ns : String) :
    (∀ (cn : String) (lo iq ico : Option Bool) (pl : Option (List String)),
      enumerateInstancesOp r ns cn lo none iq ico pl =
        enumerateInstancesOp r ns cn lo (some true) iq ico pl) ∧
    (∀ (cln : Option String) (lo iq ico : Option Bool),
      enumerateClassesOp r ns cln none lo iq ico =
        enumerateClassesOp r ns cln (some false) lo iq ico) ∧
    (∀ cln : Option String,
      enumerateClassNamesOp r ns cln none =
        enumerateClassNamesOp r ns cln (some false)) ∧
    (∀ (sts : NamespaceStores) (cn : String), r.stores ns = some sts →
      classExists sts.classes cn = true → ¬ cn = "" →
      enumerateClassNamesOp r ns (some cn) none =
        .ok (directSubclassNames sts.classes (some cn))) ∧
    (∀ sts : NamespaceStores, r.stores ns = some sts →
      enumerateClassNamesOp r ns none none =
        .ok (directSubclassNames sts.classes none)) ∧
    (∀ (sts : NamespaceStores) (cn : String) (lo iq ico : Option Bool)
      (pl : Option (List String)), r.stores ns = some sts →
      classExists sts.classes cn = true →
      enumerateInstancesOp r ns cn lo none iq ico pl =
        (sts.instances.filter (fun inst =>
          memci (getSubclassNames sts.classes (some cn) (some true) ++ [cn])
            inst.path.classname)).mapM
          (fun inst => getInstanceOp r ns inst.path sts.instances pl none ico iq)) := by
  refine ⟨fun cn lo iq ico pl => rfl, fun cln lo iq ico => ?_, fun cln => ?_,
    fun sts cn h hcn hne => ?_, fun sts h => ?_, fun sts cn lo iq ico pl h hcn => ?_⟩
  · cases h : r.stores ns <;>
      simp [enumerateClassesOp, h, getSubclassNames_none_eq_false]
  · cases h : r.stores ns <;>
      simp [enumerateClassNamesOp, h, getSubclassNames_none_eq_false]
  · have hne2 : (cn == "") = false := beq_eq_false_iff_ne.mpr hne
    simp [enumerateClassNamesOp, h, isTruthyStr, hne2, hcn,
      getSubclassNames_not_deep _ _ none rfl]
  · simp [enumerateClassNamesOp, h, isTruthyStr,
      getSubclassNames_not_deep _ _ none rfl]
  · rcases (classExists_iff sts.classes cn).1 hcn with ⟨cls, hcls⟩
    simp [enumerateInstancesOp, h, getClassOp, hcls, DEFAULT_DEEP_INHERITANCE,
      getSubclassListForEnums, hcn]

/-- Witness for C7 on a concrete two-class repository with one subclass
instance: `EnumerateInstances` with absent `DeepInheritance` returns the
`Child` instance for `ClassName="Root"`, while `EnumerateClassNames`
returns only the direct subclass. -/
theorem C7_deepinheritance_defaults_witness :
    enumerateInstancesOp c7Repo "root" "Root" none none none none none =
      .ok [⟨"Child", [⟨"K", "string", false, none, .vStr "a", [], none, true⟩],
        [], ⟨"Child", some "root", [("K", .vStr "a")]⟩⟩] ∧
    enumerateClassNamesOp c7Repo "root" (some "Root") none = .ok ["Child"] := by
  constructor
  · have h := (C7_deepinheritance_defaults c7Repo "root").2.2.2.2.2
      ⟨[c7Root, c7Child], [c7Inst]⟩ "Root" none none none none (by decide) (by decide)
    rw [h]
    decide
  · have h := (C7_deepinheritance_defaults c7Repo "root").2.2.2.1
      ⟨[c7Root, c7Child], [c7Inst]⟩ "Root" (by decide) (by decide) (by decide)
    rw [h]
    decide

/-! ## Theorems: CreateInstance namespace-creation atomicity (C5) -/

/-- `dropWhile` is idempotent. -/
theorem dropWhile_dropWhile {α : Type} (p : α → Bool) (l : List α) :
    (l.dropWhile p).dropWhile p = l.dropWhile p := by
  induction l with
  | nil => rfl
  | cons a t ih =>
    rw [List.dropWhile_cons]
    by_cases hp : p a
    · simp [hp, ih]
    · simp [hp, List.dropWhile_cons]

/-- A prefix of a `dropWhile`-fixed list is itself `dropWhile`-fixed. -/
theorem dropWhile_eq_self_of_prefix {α : Type} {p : α → Bool} {l t : List α}
    (hl : l.dropWhile p = l) (ht : t <+: l) : t.dropWhile p = t := by
  cases t with
  | nil => rfl
  | cons a t2 =>
    rcases ht with ⟨rest, hrest⟩
    cases l with
    | nil => simp at hrest
    | cons b l2 =>
      have hab : a = b := by
        rw [List.cons_append] at hrest
        exact (List.cons.injEq _ _ _ _ ▸ hrest).1
      have hpb : p b = false := by
        by_cases hp : p b
        · exfalso
          rw [List.dropWhile_cons, if_pos hp] at hl
          have hlen := (List.dropWhile_suffix (l := l2) p).sublist.length_le
          rw [hl] at hlen
          simp at hlen
        · simpa using hp
      rw [List.dropWhile_cons, hab, hpb]
      simp

/-- Stripping slashes is idempotent at the list level. -/
theorem stripSlashList_idem (l : List Char) :
    stripSlashList (stripSlashList l) = stripSlashList l := by
  unfold stripSlashList
  set pc : Char → Bool := fun c => c == '/' with hpc
  set l1 := l.dropWhile pc with hl1
  set u := l1.reverse.dropWhile pc with hu
  have hfix1 : l1.dropWhile pc = l1 := by
    rw [hl1]; exact dropWhile_dropWhile pc l
  have hpre : u.reverse <+: l1 := by
    have hsuf : u <:+ l1.reverse := by rw [hu]; exact List.dropWhile_suffix pc
    have := List.reverse_prefix.mpr hsuf
    simpa using this
  have ht : u.reverse.dropWhile pc = u.reverse :=
    dropWhile_eq_self_of_prefix hfix1 hpre
  rw [ht]
  have hrev : u.reverse.reverse = u := List.reverse_reverse u
  rw [hrev]
  have hfix2 : u.dropWhile pc = u := by
    rw [hu]; exact dropWhile_dropWhile pc l1.reverse
  rw [hfix2]

/-- Stripping slashes is idempotent. -/
theorem pyStripSlashes_idem (s : String) :
    pyStripSlashes (pyStripSlashes s) = pyStripSlashes s := by
  unfold pyStripSlashes
  have htl : (String.mk (stripSlashList s.toList)).toList = stripSlashList s.toList := rfl
  rw [htl, stripSlashList_idem]

/-- List level: keyed in-place replacement keeps the key list. -/
theorem map_fst_set_entry (l : List (String × NamespaceStores)) (ns : String)
    (sts : NamespaceStores) :
    (l.map (fun e => if e.1 == ns then (ns, sts) else e)).map Prod.fst =
      l.map Prod.fst := by
  induction l with
  | nil => rfl
  | cons a t ih =>
    by_cases hb : (a.1 == ns) = true
    · simp only [List.map_cons, if_pos hb, ih]
      rw [beq_iff_eq.mp hb]
    · simp only [List.map_cons, if_neg hb, ih]

/-- List level: after keyed replacement, the lookup finds the new entry. -/
theorem find?_set_entry (l : List (String × NamespaceStores)) (ns : String)
    (sts : NamespaceStores) (h : (l.find? (fun e => e.1 == ns)).isSome) :
    (l.map (fun e => if e.1 == ns then (ns, sts) else e)).find?
      (fun e => e.1 == ns) = some (ns, sts) := by
  induction l with
  | nil => simp at h
  | cons a t ih =>
    by_cases hb : (a.1 == ns) = true
    · rw [List.map_cons, if_pos hb, List.find?_cons]
      have hns : ((ns, sts).1 == ns) = true := by simp
      rw [hns]
    · have hb2 : (a.1 == ns) = false := by simpa using hb
      rw [List.find?_cons, hb2] at h
      rw [List.map_cons, if_neg hb, List.find?_cons, hb2]
      exact ih h

/-- `setStores` does not change the namespace catalog. -/
theorem Repo.names_setStores (r : Repo) (ns : String) (sts : NamespaceStores) :
    (r.setStores ns sts).names = r.names :=
  map_fst_set_entry r.nspaces ns sts

/-- `setStores` on a present namespace stores the new value. -/
theorem Repo.stores_setStores_self (r : Repo) (ns : String) (sts old : NamespaceStores)
    (h : r.stores ns = some old) : (r.setStores ns sts).stores ns = some sts := by
  have hsome : (r.nspaces.find? (fun e => e.1 == ns)).isSome := by
    unfold Repo.stores at h
    cases hf : r.nspaces.find? (fun e => e.1 == ns) with
    | none => rw [hf] at h; simp at h
    | some v => simp [hf]
  show ((r.nspaces.map (fun e => if e.1 == ns then (ns, sts) else e)).find?
    (fun e => e.1 == ns)).map Prod.snd = some sts
  rw [find?_set_entry r.nspaces ns sts hsome]
  rfl

/-- A successful `addNamespaceOp` appends the stripped name to the catalog
and preserves every existing namespace's stores. -/
theorem addNamespaceOp_ok (r : Repo) (nm : String) (r2 : Repo)
    (h : addNamespaceOp r nm = .ok r2) :
    r2.names = r.names ++ [pyStripSlashes nm] ∧
    (∀ (ns : String) (sts : NamespaceStores), r.stores ns = some sts →
      r2.stores ns = some sts) := by
  unfold addNamespaceOp at h
  by_cases hex : (r.stores (pyStripSlashes nm)).isSome
  · rw [if_pos hex] at h
    exact absurd h (by simp)
  · rw [if_neg hex] at h
    have hr2 : r2 = ⟨r.nspaces ++ [(pyStripSlashes nm, ⟨[], []⟩)]⟩ := by
      cases h; rfl
    subst hr2
    constructor
    · simp [Repo.names]
    · intro ns sts hs
      unfold Repo.stores at hs ⊢
      rw [List.find?_append]
      cases hf : r.nspaces.find? (fun e => e.1 == ns) with
      | none => rw [hf] at hs; simp at hs
      | some v =>
        rw [hf] at hs
        simp only [Option.map_some'] at hs
        simp [hf, hs]

/-- Inversion of a successful namespace-creation block. -/
theorem nsCreationStep_ok (inst : CIMInstance)
    (pr : CIMInstance × Option String) (h : nsCreationStep inst = .ok pr) :
    (pr.2 = none → nsCreationClass inst.classname = none) ∧
    (∀ nm : String, pr.2 = some nm →
      nsCreationClass inst.classname ≠ none ∧
      ∃ s : String, instGetValue inst "Name" = some (.vStr s) ∧
        nm = pyStripSlashes s) := by
  unfold nsCreationStep at h
  repeat' split at h
  all_goals try (exfalso; simp at h; done)
  · obtain rfl : (inst, (none : Option String)) = pr := by simpa using h
    refine ⟨fun _ => by assumption, fun nm hnm => ?_⟩
    simp at hnm
  · dsimp only at h
    rw [Except.ok.injEq] at h
    obtain ⟨pi, pn⟩ := pr
    rw [Prod.mk.injEq] at h
    obtain ⟨hpi, hpn⟩ := h
    subst hpi
    subst hpn
    constructor
    · intro hx
      simp at hx
    · intro nm hnm
      simp only [Option.some.injEq] at hnm
      refine ⟨?_, _, by assumption, ?_⟩
      · intro hc
        simp_all
      · exact hnm.symm

/-- Inversion of a successful validation phase of `CreateInstance`. -/
theorem createInstancePrep_ok (r : Repo) (ns : String) (inst : CIMInstance)
    (sts : NamespaceStores) (inst3 : CIMInstance) (nsToAdd : Option String)
    (h : createInstancePrep r ns inst = .ok (sts, inst3, nsToAdd)) :
    r.stores ns = some sts ∧
    (nsToAdd = none → nsCreationClass inst.classname = none) ∧
    (∀ nm : String, nsToAdd = some nm →
      nsCreationClass inst.classname ≠ none ∧
      ∃ s : String, instGetValue inst "Name" = some (.vStr s) ∧
        nm = pyStripSlashes s) := by
  unfold createInstancePrep at h
  repeat' split at h
  all_goals try (exfalso; simp at h; done)
  all_goals try (exfalso; rw [ite_eq_iff] at h; simp at h; done)
  rw [ite_eq_iff] at h
  rcases h with ⟨hc1, h⟩ | ⟨hc1, h⟩
  · exact absurd h (by simp)
  · rw [ite_eq_iff] at h
    rcases h with ⟨hc2, h⟩ | ⟨hc2, h⟩
    · exact absurd h (by simp)
    · rw [Except.ok.injEq, Prod.mk.injEq, Prod.mk.injEq] at h
      obtain ⟨h1, h2, h3⟩ := h
      subst h1
      subst h3
      have hstep := nsCreationStep_ok inst _ (by assumption)
      exact ⟨by assumption, hstep.1, hstep.2⟩

/-- Claim C5: `CreateInstance` commits nothing on failure and, on success,
appends exactly one instance (whose path is the returned path) to the
namespace's instance store; for a namespace-creation request
(classname case-insensitively `PG_Namespace`/`CIM_Namespace`) the
slash-stripped `Name` property is appended to the namespace catalog, and
on any validation failure the catalog is unchanged. -/
theorem C5_createinstance_namespace_atomic (r : Repo) (ns : String)
    (inst : CIMInstance) :
    (∀ (e : OpError) (r2 : Repo), createInstanceOp r ns inst = (.error e, r2) →
      r2 = r) ∧
    (∀ (p : CIMInstanceName) (r2 : Repo), createInstanceOp r ns inst = (.ok p, r2) →
      ∃ (sts : NamespaceStores) (newInst : CIMInstance),
        r.stores ns = some sts ∧
        r2.stores ns = some ⟨sts.classes, sts.instances ++ [newInst]⟩ ∧
        newInst.path = p ∧
        (nsCreationClass inst.classname = none → r2.names = r.names) ∧
        (∀ nsc : String, nsCreationClass inst.classname = some nsc →
          ∃ s : String, instGetValue inst "Name" = some (.vStr s) ∧
            r2.names = r.names ++ [pyStripSlashes s])) := by
  constructor
  · intro e r2 h
    unfold createInstanceOp at h
    cases hp : createInstancePrep r ns inst with
    | error e0 =>
      rw [hp] at h
      simp only [Prod.mk.injEq] at h
      exact h.2.symm
    | ok trip =>
      obtain ⟨sts, inst3, nsToAdd⟩ := trip
      rw [hp] at h
      dsimp only at h
      cases nsToAdd with
      | none => simp at h
      | some nm =>
        dsimp only at h
        cases ha : addNamespaceOp r nm with
        | error c =>
          rw [ha] at h
          simp only [Prod.mk.injEq] at h
          exact h.2.symm
        | ok r2x => rw [ha] at h; simp at h
  · intro p r2 h
    unfold createInstanceOp at h
    cases hp : createInstancePrep r ns inst with
    | error e0 => rw [hp] at h; simp at h
    | ok trip =>
      obtain ⟨sts, inst3, nsToAdd⟩ := trip
      rw [hp] at h
      dsimp only at h
      have hfacts := createInstancePrep_ok r ns inst sts inst3 nsToAdd hp
      cases nsToAdd with
      | none =>
        dsimp only at h
        simp only [Prod.mk.injEq, Except.ok.injEq] at h
        obtain ⟨hpath, hr2⟩ := h
        refine ⟨sts, inst3, hfacts.1, ?_, hpath, ?_, ?_⟩
        · rw [← hr2]
          exact Repo.stores_setStores_self r ns _ sts hfacts.1
        · intro _
          rw [← hr2]
          exact Repo.names_setStores r ns _
        · intro nsc hnsc
          rw [hfacts.2.1 rfl] at hnsc
          exact absurd hnsc (by simp)
      | some nm =>
        dsimp only at h
        cases ha : addNamespaceOp r nm with
        | error c => rw [ha] at h; simp at h
        | ok r2x =>
          rw [ha] at h
          simp only [Prod.mk.injEq, Except.ok.injEq] at h
          obtain ⟨hpath, hr2⟩ := h
          obtain ⟨hnames, hpres⟩ := addNamespaceOp_ok r nm r2x ha
          obtain ⟨hnsc, s, hname, hnm⟩ := hfacts.2.2 nm rfl
          refine ⟨sts, inst3, hfacts.1, ?_, hpath, ?_, ?_⟩
          · rw [← hr2]
            exact Repo.stores_setStores_self r2x ns _ sts (hpres ns sts hfacts.1)
          · intro hnone
            exact absurd hnone hnsc
          · intro nsc _
            refine ⟨s, hname, ?_⟩
            rw [← hr2, Repo.names_setStores, hnames, hnm, pyStripSlashes_idem]

/-- Witness for C5: creating a `CIM_Namespace` instance with
`Name="/root/test/"` adds the namespace `root/test` and stores the
prepared instance. -/
theorem C5_createinstance_namespace_atomic_witness :
    createInstanceOp c5Repo "root" c5NewInst = (.ok c5OutPath, c5Repo2) ∧
    ∃ (sts : NamespaceStores) (newInst : CIMInstance),
      c5Repo.stores "root" = some sts ∧
      c5Repo2.stores "root" = some ⟨sts.classes, sts.instances ++ [newInst]⟩ ∧
      newInst.path = c5OutPath ∧
      ∃ s : String, instGetValue c5NewInst "Name" = some (.vStr s) ∧
        c5Repo2.names = c5Repo.names ++ [pyStripSlashes s] := by
  have hres : createInstanceOp c5Repo "root" c5NewInst = (.ok c5OutPath, c5Repo2) := by
    decide
  have h := (C5_createinstance_namespace_atomic c5Repo "root" c5NewInst).2
    c5OutPath c5Repo2 hres
  obtain ⟨sts, newInst, h1, h2, h3, h4, h5⟩ := h
  obtain ⟨s, hs1, hs2⟩ := h5 "CIM_Namespace" (by decide)
  exact ⟨hres, sts, newInst, h1, h2, h3, s, hs1, hs2⟩

/-! ## Theorems: DeleteClass (C6) -/

/-- Case-insensitive equality is reflexive. -/
theorem eqci_refl (a : String) : eqci a a = true := by simp [eqci]

/-- Case-insensitive equality is symmetric. -/
theorem eqci_comm (a b : String) : eqci a b = eqci b a := by
  unfold eqci
  by_cases h : lc a = lc b
  · rw [h]
  · rw [beq_eq_false_iff_ne.mpr h, beq_eq_false_iff_ne.mpr (Ne.symm h)]

/-- Case-insensitive equality is transitive. -/
theorem eqci_trans {a b c : String} (h1 : eqci a b = true)
    (h2 : eqci b c = true) : eqci a c = true := by
  unfold eqci at h1 h2 ⊢
  exact beq_iff_eq.mpr ((beq_iff_eq.mp h1).trans (beq_iff_eq.mp h2))

/-- Unfolding of case-insensitive membership. -/
theorem memci_exists {l : List String} {s : String} :
    memci l s = true ↔ ∃ y ∈ l, eqci y s = true := by
  simp [memci, List.any_eq_true]

/-- Elements of one walk level are classnames of the store. -/
theorem directSubclassNames_mem {S : List CIMClass} {cn : Option String}
    {x : String} (hx : x ∈ directSubclassNames S cn) :
    ∃ c ∈ S, c.classname = x := by
  unfold directSubclassNames at hx
  cases cn with
  | none =>
    rw [List.mem_map] at hx
    obtain ⟨c, hc, rfl⟩ := hx
    exact ⟨c, (List.mem_filter.mp hc).1, rfl⟩
  | some n =>
    rw [List.mem_map] at hx
    obtain ⟨c, hc, rfl⟩ := hx
    exact ⟨c, (List.mem_filter.mp hc).1, rfl⟩

/-- One walk level is monotone in the store. -/
theorem directSubclassNames_sublist {Ssub S : List CIMClass}
    (h : List.Sublist Ssub S) (cn : Option String) :
    List.Sublist (directSubclassNames Ssub cn) (directSubclassNames S cn) := by
  unfold directSubclassNames
  cases cn with
  | none => exact (h.filter _).map _
  | some n => exact (h.filter _).map _

/-- The fueled walk is monotone in the store (same fuel). -/
theorem getSubclassNamesFuel_store_mono {Ssub S : List CIMClass}
    (h : List.Sublist Ssub S) (deep : Option Bool) :
    ∀ (f : Nat) (cn : Option String) (x : String),
      x ∈ getSubclassNamesFuel Ssub deep f cn →
      x ∈ getSubclassNamesFuel S deep f cn := by
  intro f
  induction f with
  | zero => intro cn x hx; simp [getSubclassNamesFuel] at hx
  | succ g ih =>
    intro cn x hx
    unfold getSubclassNamesFuel at hx ⊢
    by_cases hd : isTrue deep = true
    · rw [if_pos hd] at hx ⊢
      rw [List.mem_append] at hx ⊢
      rcases hx with hx | hx
      · exact Or.inl ((directSubclassNames_sublist h cn).subset hx)
      · rw [List.mem_flatten] at hx
        obtain ⟨l, hl, hxl⟩ := hx
        rw [List.mem_map] at hl
        obtain ⟨cln, hcln, rfl⟩ := hl
        refine Or.inr ?_
        rw [List.mem_flatten]
        refine ⟨getSubclassNamesFuel S deep g (some cln), ?_, ih (some cln) x hxl⟩
        rw [List.mem_map]
        exact ⟨cln, (directSubclassNames_sublist h cn).subset hcln, rfl⟩
    · rw [if_neg hd] at hx ⊢
      exact (directSubclassNames_sublist h cn).subset hx

/-- The fueled walk is monotone in the fuel. -/
theorem getSubclassNamesFuel_fuel_mono {S : List CIMClass} (deep : Option Bool) :
    ∀ (f g : Nat), f ≤ g → ∀ (cn : Option String) (x : String),
      x ∈ getSubclassNamesFuel S deep f cn →
      x ∈ getSubclassNamesFuel S deep g cn := by
  intro f
  induction f with
  | zero => intro g hg cn x hx; simp [getSubclassNamesFuel] at hx
  | succ f2 ih =>
    intro g hg cn x hx
    obtain ⟨g2, rfl⟩ : ∃ g2, g = g2 + 1 := ⟨g - 1, by omega⟩
    unfold getSubclassNamesFuel at hx ⊢
    by_cases hd : isTrue deep = true
    · rw [if_pos hd] at hx ⊢
      rw [List.mem_append] at hx ⊢
      rcases hx with hx | hx
      · exact Or.inl hx
      · rw [List.mem_flatten] at hx
        obtain ⟨l, hl, hxl⟩ := hx
        rw [List.mem_map] at hl
        obtain ⟨cln, hcln, rfl⟩ := hl
        refine Or.inr ?_
        rw [List.mem_flatten]
        exact ⟨_, List.mem_map_of_mem _ hcln,
          ih g2 (by omega) (some cln) x hxl⟩
    · rw [if_neg hd] at hx ⊢
      exact hx

/-- Every element of the fueled walk is a classname of the store. -/
theorem getSubclassNamesFuel_classnames {S : List CIMClass} (deep : Option Bool) :
    ∀ (f : Nat) (cn : Option String) (x : String),
      x ∈ getSubclassNamesFuel S deep f cn → ∃ c ∈ S, c.classname = x := by
  intro f
  induction f with
  | zero => intro cn x hx; simp [getSubclassNamesFuel] at hx
  | succ f2 ih =>
    intro cn x hx
    unfold getSubclassNamesFuel at hx
    by_cases hd : isTrue deep = true
    · rw [if_pos hd, List.mem_append] at hx
      rcases hx with hx | hx
      · exact directSubclassNames_mem hx
      · rw [List.mem_flatten] at hx
        obtain ⟨l, hl, hxl⟩ := hx
        rw [List.mem_map] at hl
        obtain ⟨cln, hcln, rfl⟩ := hl
        exact ih (some cln) x hxl
    · rw [if_neg hd] at hx
      exact directSubclassNames_mem hx

/-- A class member yields `classExists` of its name. -/
theorem classExists_of_mem {S : List CIMClass} {c : CIMClass} (hc : c ∈ S) :
    classExists S c.classname = true := by
  unfold classExists
  rw [List.any_eq_true]
  exact ⟨c, hc, eqci_refl _⟩

/-- Every element of the closed deep-walk set has a witnessing class. -/
theorem exists_witness_of_mem_T (C0 : List CIMClass) (target x : String)
    (hex : classExists C0 target = true)
    (hx : x ∈ getSubclassNames C0 (some target) (some true) ++ [target]) :
    ∃ c ∈ C0, eqci c.classname x = true := by
  rw [List.mem_append] at hx
  rcases hx with hw | hl
  · unfold getSubclassNames at hw
    obtain ⟨c, hc, rfl⟩ := getSubclassNamesFuel_classnames (some true) _ _ _ hw
    exact ⟨c, hc, eqci_refl _⟩
  · simp only [List.mem_singleton] at hl
    subst hl
    unfold classExists at hex
    rw [List.any_eq_true] at hex
    exact hex

/-- The walk of a filtered store is contained in the walk of the store. -/
theorem getSubclassNames_filter_subset (C0 : List CIMClass)
    (p : CIMClass → Bool) (target : String) {x : String}
    (hx : x ∈ getSubclassNames (C0.filter p) (some target) (some true)) :
    x ∈ getSubclassNames C0 (some target) (some true) := by
  unfold getSubclassNames at hx ⊢
  have hsub : List.Sublist (C0.filter p) C0 := List.filter_sublist C0
  have h1 := getSubclassNamesFuel_fuel_mono (some true)
    ((C0.filter p).length + 1) (C0.length + 1)
    (by have := hsub.length_le; omega) (some target) x hx
  exact getSubclassNamesFuel_store_mono hsub (some true) _ _ _ h1

/-- A tail element yields the last element of a concatenation. -/
theorem mem_of_getLast? {α : Type} {l : List α} {a : α}
    (h : l.getLast? = some a) : a ∈ l := by
  obtain ⟨l2, rfl⟩ := List.getLast?_eq_some_iff.mp h
  simp

/-- One unfolding of the `DeleteClass` loop body when the target and the
current classname both exist in the class store. -/
theorem deleteClassIter_step (target cln : String) (rest : List String)
    (C : List CIMClass) (I : List CIMInstance)
    (hexC : classExists C target = true)
    (hexCln : classExists C cln = true) :
    deleteClassIter target (cln :: rest) ⟨C, I⟩ =
      ((deleteClassIter target rest
          ⟨C.filter (fun c => ! eqci c.classname cln),
            I.filter (fun i => ! memci
              (getSubclassNames C (some target) (some true) ++ [target])
              i.path.classname)⟩).1,
        cln :: (deleteClassIter target rest
          ⟨C.filter (fun c => ! eqci c.classname cln),
            I.filter (fun i => ! memci
              (getSubclassNames C (some target) (some true) ++ [target])
              i.path.classname)⟩).2) := by
  have hsub : getSubclassListForEnums C target =
      .ok (getSubclassNames C (some target) (some true) ++ [target]) := by
    unfold getSubclassListForEnums
    rw [if_neg (by rw [hexC]; simp)]
  have hdel : classDelete C cln =
      .ok (C.filter (fun c => ! eqci c.classname cln)) := by
    unfold classDelete
    rw [if_pos hexCln]
  rw [deleteClassIter, hsub]
  dsimp only
  rw [hdel]

/-- Running the `DeleteClass` loop over a suffix of the closed subclass
set: with the already-deleted prefix filtered out of the class store and
the instance store already cleared of every instance in the set, the loop
deletes exactly the remaining classnames, touching no instance. -/
theorem deleteClassIter_run (target : String) (C0 : List CIMClass)
    (T : List String)
    (hT : T = getSubclassNames C0 (some target) (some true) ++ [target])
    (hnd : T.Pairwise (fun a b => eqci a b = false))
    (hex : classExists C0 target = true) :
    ∀ (rest deleted : List String) (I : List CIMInstance),
      deleted ++ rest = T →
      (∀ i ∈ I, memci T i.path.classname = false) →
      deleteClassIter target rest
        ⟨C0.filter (fun c => ! memci deleted c.classname), I⟩ =
        ((.ok (), ⟨C0.filter (fun c => ! memci T c.classname), I⟩), rest) := by
  intro rest
  induction rest with
  | nil =>
    intro deleted I hsplit hI
    rw [List.append_nil] at hsplit
    subst hsplit
    rfl
  | cons cln rest2 ih =>
    intro deleted I hsplit hI
    have hcross : ∀ a ∈ deleted, ∀ b ∈ cln :: rest2, eqci a b = false := by
      have hnd2 := hnd
      rw [← hsplit] at hnd2
      exact (List.pairwise_append.mp hnd2).2.2
    have htargetMem : target ∈ cln :: rest2 := by
      apply mem_of_getLast?
      have h1 : T.getLast? = some target := by rw [hT]; simp
      rw [← hsplit] at h1
      rwa [List.getLast?_append_of_ne_nil _ (by simp)] at h1
    have hsurvive : ∀ (c : CIMClass), c ∈ C0 → ∀ y ∈ cln :: rest2,
        eqci c.classname y = true →
        classExists (C0.filter (fun c => ! memci deleted c.classname)) y = true := by
      intro c hc y hy hcy
      unfold classExists
      rw [List.any_eq_true]
      refine ⟨c, List.mem_filter.mpr ⟨hc, ?_⟩, hcy⟩
      simp only [Bool.not_eq_eq_eq_not, Bool.not_true]
      by_contra hmem
      have hmem2 : memci deleted c.classname = true := by
        cases hx : memci deleted c.classname
        · exact absurd hx hmem
        · rfl
      obtain ⟨d, hd, hdc⟩ := memci_exists.mp hmem2
      have hdy : eqci d y = true := eqci_trans hdc hcy
      have := hcross d hd y hy
      rw [this] at hdy
      exact absurd hdy (by simp)
    obtain ⟨ct, hct, hctn⟩ : ∃ c ∈ C0, eqci c.classname target = true := by
      unfold classExists at hex
      rw [List.any_eq_true] at hex
      exact hex
    have hclnT : cln ∈ getSubclassNames C0 (some target) (some true) ++ [target] := by
      rw [← hT, ← hsplit]
      simp
    obtain ⟨cc, hcc, hccn⟩ := exists_witness_of_mem_T C0 target cln hex hclnT
    have hexC2 : classExists (C0.filter (fun c => ! memci deleted c.classname))
        target = true := hsurvive ct hct target htargetMem hctn
    have hexCln2 : classExists (C0.filter (fun c => ! memci deleted c.classname))
        cln = true := hsurvive cc hcc cln (by simp) hccn
    rw [deleteClassIter_step target cln rest2 _ I hexC2 hexCln2]
    have hIfix : I.filter (fun i => ! memci
        (getSubclassNames (C0.filter (fun c => ! memci deleted c.classname))
          (some target) (some true) ++ [target]) i.path.classname) = I := by
      apply List.filter_eq_self.mpr
      intro i hi
      simp only [Bool.not_eq_eq_eq_not, Bool.not_true]
      cases hx : memci (getSubclassNames
        (C0.filter (fun c => ! memci deleted c.classname))
        (some target) (some true) ++ [target]) i.path.classname
      · rfl
      · exfalso
        obtain ⟨y, hy, hyx⟩ := memci_exists.mp hx
        have hyT : y ∈ T := by
          rw [List.mem_append] at hy
          rcases hy with hy | hy
          · rw [hT, List.mem_append]
            exact Or.inl (getSubclassNames_filter_subset C0 _ target hy)
          · simp only [List.mem_singleton] at hy
            subst hy
            rw [hT]
            simp
        have hmem : memci T i.path.classname = true := memci_exists.mpr ⟨y, hyT, hyx⟩
        rw [hI i hi] at hmem
        exact absurd hmem (by simp)
    have hCstep : (C0.filter (fun c => ! memci deleted c.classname)).filter
        (fun c => ! eqci c.classname cln) =
        C0.filter (fun c => ! memci (deleted ++ [cln]) c.classname) := by
      rw [List.filter_filter]
      apply List.filter_congr
      intro c _
      unfold memci
      rw [List.any_append]
      have hcomm : eqci cln c.classname = eqci c.classname cln := eqci_comm _ _
      simp only [List.any_cons, List.any_nil, Bool.or_false, Bool.not_or, hcomm]
      cases eqci c.classname cln <;>
        cases deleted.any (fun x => eqci x c.classname) <;> rfl
    rw [hIfix, hCstep]
    have hsplit2 : (deleted ++ [cln]) ++ rest2 = T := by
      rw [← hsplit]
      simp
    rw [ih (deleted ++ [cln]) I hsplit2 hI]

/-- Claim C6 (amended): `DeleteClass` on an absent class raises `NOT_FOUND`
and deletes nothing.  Otherwise (with the closed subclass set free of
case-insensitive duplicates, as in any well-formed store) it deletes every
instance whose classname is case-insensitively in the closed deep subclass
set and every class in that set; the deletion order is the recursive
subclass enumeration order — direct subclasses first, each class before
its own deeper subclasses — with the target class deleted last (not
deepest-first). -/
theorem C6_deleteclass_amended (r : Repo) (ns cn : String) :
    (∀ sts : NamespaceStores, r.stores ns = some sts →
      classExists sts.classes cn = false →
      deleteClassOp r ns cn = ((.error (.cim .notFound), r), [])) ∧
    (∀ sts : NamespaceStores, r.stores ns = some sts →
      classExists sts.classes cn = true →
      (getSubclassNames sts.classes (some cn) (some true) ++ [cn]).Pairwise
        (fun a b => eqci a b = false) →
      deleteClassOp r ns cn =
        ((.ok (), r.setStores ns
          ⟨sts.classes.filter (fun c => ! memci
              (getSubclassNames sts.classes (some cn) (some true) ++ [cn])
              c.classname),
            sts.instances.filter (fun i => ! memci
              (getSubclassNames sts.classes (some cn) (some true) ++ [cn])
              i.path.classname)⟩),
          getSubclassNames sts.classes (some cn) (some true) ++ [cn]) ∧
      (getSubclassNames sts.classes (some cn) (some true) ++ [cn]).getLast? =
        some cn) := by
  constructor
  · intro sts h hcn
    unfold deleteClassOp
    rw [h]
    dsimp only
    rw [if_pos (by rw [hcn]; simp)]
  · intro sts h hcn hnd
    refine ⟨?_, by simp⟩
    unfold deleteClassOp
    rw [h]
    dsimp only
    rw [if_neg (by rw [hcn]; simp)]
    obtain ⟨cln0, restT, hT0⟩ : ∃ a l,
        getSubclassNames sts.classes (some cn) (some true) ++ [cn] = a :: l := by
      cases hb : getSubclassNames sts.classes (some cn) (some true) ++ [cn] with
      | nil => exact absurd hb (by simp)
      | cons a l => exact ⟨a, l, rfl⟩
    rw [hT0]
    have hexCln0 : classExists sts.classes cln0 = true := by
      have hc0 : cln0 ∈ getSubclassNames sts.classes (some cn) (some true) ++ [cn] := by
        rw [hT0]; simp
      obtain ⟨c, hc, hcw⟩ := exists_witness_of_mem_T sts.classes cn cln0 hcn hc0
      unfold classExists
      rw [List.any_eq_true]
      exact ⟨c, hc, hcw⟩
    rw [deleteClassIter_step cn cln0 restT sts.classes sts.instances hcn hexCln0]
    have hC1 : sts.classes.filter (fun c => ! eqci c.classname cln0) =
        sts.classes.filter (fun c => ! memci [cln0] c.classname) := by
      apply List.filter_congr
      intro c _
      unfold memci
      simp only [List.any_cons, List.any_nil, Bool.or_false]
      rw [eqci_comm]
    rw [hC1]
    have hrun := deleteClassIter_run cn sts.classes
      (getSubclassNames sts.classes (some cn) (some true) ++ [cn]) rfl hnd hcn
      restT [cln0]
      (sts.instances.filter (fun i => ! memci
        (getSubclassNames sts.classes (some cn) (some true) ++ [cn])
        i.path.classname))
      (by rw [hT0]; rfl)
      (by
        intro i hi
        have := (List.mem_filter.mp hi).2
        cases hx : memci (getSubclassNames sts.classes (some cn) (some true) ++ [cn])
            i.path.classname
        · rfl
        · rw [hx] at this
          exact absurd this (by simp))
    rw [hrun]
    dsimp only
    rw [hT0]

/-- Claim C6 counterexample: on the chain `A ← B ← C`, `DeleteClass(A)`
deletes in the order `[B, C, A]`, which is not descending-depth order:
`B` (depth 1) is deleted before its own subclass `C` (depth 2). -/
theorem C6_deleteclass_counterexample :
    (deleteClassOp c6Repo "root" "A").2 = ["B", "C", "A"] ∧
    (deleteClassOp c6Repo "root" "A").1.1 = .ok () ∧
    classDepth [c6A, c6B, c6C] "B" = 1 ∧
    classDepth [c6A, c6B, c6C] "C" = 2 ∧
    descendingDepth [c6A, c6B, c6C] ["B", "C", "A"] = false := by
  refine ⟨by decide, by decide, by decide, by decide, by decide⟩

/-- Witness for the amended C6: deleting `A` from a store with
`A ← B ← C`, an instance of classname `c` (case-insensitive match) and an
instance of unrelated `X` removes all three classes and the `c` instance,
keeps `X`, and deletes classes in the order `[B, C, A]`. -/
theorem C6_deleteclass_amended_witness :
    deleteClassOp c6wRepo "root" "A" =
      ((.ok (), ⟨[("root", ⟨[], [c6InstX]⟩)]⟩), ["B", "C", "A"]) := by
  have h := ((C6_deleteclass_amended c6wRepo "root" "A").2
    ⟨[c6A, c6B, c6C], [c6InstC, c6InstX]⟩ (by decide) (by decide) (by decide)).1
  rw [h]
  decide

end PywbemMock
